import Mathlib

/-!
Verification of the surface-distance engine of Code/Surface_distance.py.

The pipeline is embedded shallowly:

* a binary volume is a shape triple `n : ℕ × ℕ × ℕ` together with a
  function `ℕ → ℕ → ℕ → Bool` (the two input volumes of
  `compute_surface_distances` share one shape, as the data model requires);
* `scipy.ndimage.correlate` with the 2×2×2 kernel `[[[128,64],[32,16]],[[8,4],[2,1]]]`
  and `mode="constant", cval=0` places the kernel origin at index `size // 2 = 1`
  of each axis, so the output at a corner point `p` reads the eight voxels
  `p - (d0,d1,d2)` with `d ∈ {0,1}³`; `neighbourCode` spells this sum out;
* `scipy.ndimage.morphology.distance_transform_edt(~border, sampling=spacing)`
  is the exact anisotropic Euclidean distance to the nearest border voxel
  (`+∞` on the `np.Inf * np.ones` branch when there is no border voxel);
  `distToSurface` embeds it as the minimum over the border list of
  `Real.sqrt` of the rational squared physical distance, in `WithTop ℝ`;
* float arrays become lists; `np.float64` values that the program derives
  exactly from rational inputs are carried as `ℚ` (spacings, normal-table
  entries, squared distances) and the genuinely irrational results of
  `np.linalg.norm` / the distance transform live in `ℝ`;
* the IEEE `NaN` produced by a `0/0` in the aggregator functions is encoded
  as `none : Option _`; the `np.Inf` distances as `⊤ : WithTop _`;
* `np.searchsorted(a, v)` (left side) on the sorted cumulative-area arrays
  equals the number of entries `< v`, which is how `searchsorted` is embedded;
* `sorted(zip(distances, areas))` sorts the pairs lexicographically by
  (distance, area); `sortPairs` is `List.insertionSort` with exactly that
  lexicographic order `pairLE`.

The metric aggregators are polymorphic in a `LinearOrderedField α` (the
pipeline instantiates `α := ℝ`; witnesses evaluate them at `α := ℚ`).
-/

namespace SurfaceDist

/-- A voxel shape: extents along the three axes x0, x1, x2. -/
abbrev Shape := ℕ × ℕ × ℕ

/-- A binary volume, as its indicator function on voxel indices. -/
abbrev Mask := ℕ → ℕ → ℕ → Bool

/-- Rows 0 to 31 of the normal lookup table, in units of 1/8. -/
def neighbourCodeNormalsEighths0 : List (List (ℤ × ℤ × ℤ)) := [
  [(0, 0, 0)],
  [(1, 1, 1)],
  [(-1, -1, 1)],
  [(-2, -2, 0), (2, 2, 0)],
  [(1, -1, 1)],
  [(-2, 0, -2), (2, 0, 2)],
  [(1, -1, 1), (-1, -1, 1)],
  [(4, 0, 0), (2, 2, 2), (1, 1, 1)],
  [(-1, 1, 1)],
  [(1, 1, 1), (-1, 1, 1)],
  [(-2, 0, 2), (-2, 0, 2)],
  [(4, 0, 0), (-2, -2, 2), (-1, -1, 1)],
  [(2, -2, 0), (2, -2, 0)],
  [(4, 0, 0), (2, -2, 2), (-1, 1, -1)],
  [(-4, 0, 0), (-2, 2, 2), (-1, 1, 1)],
  [(4, 0, 0), (4, 0, 0)],
  [(1, -1, -1)],
  [(0, -2, -2), (0, 2, 2)],
  [(-1, -1, 1), (1, -1, -1)],
  [(0, -4, 0), (2, 2, 2), (1, 1, 1)],
  [(1, -1, 1), (1, -1, -1)],
  [(0, 0, -4), (2, 2, 2), (-1, -1, -1)],
  [(-1, -1, 1), (1, -1, 1), (1, -1, -1)],
  [(-1, -1, -1), (-2, -2, -2), (2, 2, 2), (1, 1, 1)],
  [(-1, 1, 1), (1, -1, -1)],
  [(0, -2, -2), (0, 2, 2), (-1, 1, 1)],
  [(-2, 0, 2), (-2, 0, 2), (1, -1, -1)],
  [(1, 1, 1), (3, 3, 3), (0, -2, 2), (-2, 0, 2)],
  [(1, -1, -1), (2, -2, 0), (2, -2, 0)],
  [(3, 3, 3), (0, 2, -2), (-1, -1, -1), (-2, 2, 0)],
  [(-4, 0, 0), (-1, -1, -1), (-2, -2, -2), (1, 1, 1)],
  [(-4, 0, 0), (-1, -1, -1), (-2, -2, -2)]]

/-- Rows 32 to 63 of the normal lookup table, in units of 1/8. -/
def neighbourCodeNormalsEighths1 : List (List (ℤ × ℤ × ℤ)) := [
  [(1, -1, 1)],
  [(1, 1, 1), (1, -1, 1)],
  [(0, -2, 2), (0, 2, -2)],
  [(0, -4, 0), (1, 1, -1), (2, 2, -2)],
  [(1, -1, 1), (1, -1, 1)],
  [(1, -1, 1), (-2, 0, -2), (2, 0, 2)],
  [(0, -2, 2), (0, 2, -2), (1, -1, 1)],
  [(-3, -3, 3), (0, 2, 2), (1, 1, -1), (-2, 0, -2)],
  [(-1, 1, 1), (1, -1, 1)],
  [(1, 1, 1), (1, -1, 1), (-1, 1, 1)],
  [(0, 0, 4), (-2, -2, 2), (-1, -1, 1)],
  [(2, 2, -2), (2, 2, -2), (1, 1, -1), (-1, -1, 1)],
  [(1, -1, 1), (2, -2, 0), (2, -2, 0)],
  [(4, 0, 0), (2, -2, 2), (-1, 1, -1), (1, -1, 1)],
  [(0, 2, -2), (3, -3, -3), (-1, 1, 1), (2, 2, 0)],
  [(-4, 0, 0), (-2, -2, 2), (-1, -1, 1)],
  [(2, -2, 0), (-2, 2, 0)],
  [(0, 4, 0), (-2, 2, 2), (1, -1, -1)],
  [(0, 4, 0), (1, -1, 1), (-2, 2, -2)],
  [(0, 4, 0), (0, -4, 0)],
  [(2, -2, 0), (-2, 2, 0), (1, -1, 1)],
  [(-3, -3, -3), (-2, 0, 2), (-1, -1, -1), (-2, 2, 0)],
  [(1, 1, 1), (0, -4, 0), (-2, -2, -2), (-1, -1, -1)],
  [(0, -4, 0), (-2, -2, -2), (-1, -1, -1)],
  [(-1, 1, 1), (2, -2, 0), (-2, 2, 0)],
  [(0, 4, 0), (2, 2, -2), (-1, -1, 1), (-1, -1, 1)],
  [(-3, 3, -3), (-2, -2, 0), (-1, 1, -1), (-2, 0, 2)],
  [(0, 4, 0), (2, 2, -2), (-1, -1, 1)],
  [(2, -2, 0), (-2, 2, 0), (2, -2, 0), (2, -2, 0)],
  [(-2, -2, 0), (-2, -2, 0), (-1, -1, 1)],
  [(1, 1, 1), (-2, -2, 0), (-2, -2, 0)],
  [(-2, -2, 0), (-2, -2, 0)]]

/-- Rows 64 to 95 of the normal lookup table, in units of 1/8. -/
def neighbourCodeNormalsEighths2 : List (List (ℤ × ℤ × ℤ)) := [
  [(-1, -1, 1)],
  [(1, 1, 1), (-1, -1, 1)],
  [(-1, -1, 1), (-1, -1, 1)],
  [(-1, -1, 1), (-2, -2, 0), (2, 2, 0)],
  [(0, -2, 2), (0, -2, 2)],
  [(0, 0, 4), (2, -2, 2), (1, -1, 1)],
  [(0, -2, 2), (0, -2, 2), (-1, -1, 1)],
  [(3, -3, 3), (0, -2, -2), (-1, 1, -1), (2, 2, 0)],
  [(-1, -1, 1), (-1, 1, 1)],
  [(1, 1, 1), (-1, -1, 1), (-1, 1, 1)],
  [(-1, -1, 1), (-2, 0, 2), (-2, 0, 2)],
  [(4, 0, 0), (-2, -2, 2), (-1, -1, 1), (-1, -1, 1)],
  [(0, 4, 0), (-2, 2, -2), (1, -1, 1)],
  [(-2, 2, -2), (-2, 2, -2), (-1, 1, -1), (-1, 1, -1)],
  [(-2, 0, -2), (3, -3, -3), (0, 2, -2), (-1, 1, 1)],
  [(4, 0, 0), (-2, 2, -2), (1, -1, 1)],
  [(-2, 0, 2), (2, 0, -2)],
  [(0, 0, 4), (-2, 2, 2), (-1, 1, 1)],
  [(-1, -1, 1), (-2, 0, 2), (2, 0, -2)],
  [(-2, 0, -2), (-3, 3, 3), (-2, -2, 0), (-1, 1, 1)],
  [(0, 0, -4), (2, 2, -2), (-1, -1, 1)],
  [(0, 0, 4), (0, 0, 4)],
  [(1, 1, 1), (1, 1, 1), (2, 2, 2), (0, 0, 4)],
  [(1, 1, 1), (2, 2, 2), (0, 0, 4)],
  [(-2, 0, 2), (2, 0, -2), (-1, 1, 1)],
  [(0, 0, 4), (2, -2, 2), (1, -1, 1), (1, -1, 1)],
  [(-2, 0, 2), (-2, 0, 2), (-2, 0, 2), (2, 0, -2)],
  [(1, -1, 1), (2, 0, 2), (2, 0, 2)],
  [(2, 0, 2), (-3, -3, 3), (-2, 2, 0), (-1, -1, 1)],
  [(0, 0, 4), (2, -2, 2), (1, -1, 1)],
  [(1, 1, 1), (2, 0, 2), (2, 0, 2)],
  [(2, 0, 2), (2, 0, 2)]]

/-- Rows 96 to 127 of the normal lookup table, in units of 1/8. -/
def neighbourCodeNormalsEighths3 : List (List (ℤ × ℤ × ℤ)) := [
  [(-1, -1, 1), (1, -1, 1)],
  [(1, 1, 1), (-1, -1, 1), (1, -1, 1)],
  [(-1, -1, 1), (0, -2, 2), (0, 2, -2)],
  [(0, -4, 0), (1, 1, -1), (2, 2, -2), (-1, -1, 1)],
  [(0, -2, 2), (0, -2, 2), (1, -1, 1)],
  [(0, 0, 4), (2, -2, 2), (1, -1, 1), (1, -1, 1)],
  [(0, -2, 2), (0, -2, 2), (0, -2, 2), (0, 2, -2)],
  [(0, 2, 2), (0, 2, 2), (1, -1, -1)],
  [(-1, 1, 1), (1, -1, 1), (-1, -1, 1)],
  [(-1, 1, 1), (1, -1, 1), (-1, -1, 1), (1, 1, 1)],
  [(0, 0, 4), (-2, -2, 2), (-1, -1, 1), (-1, -1, 1)],
  [(1, 1, 1), (1, -1, 1), (1, -1, -1)],
  [(0, 4, 0), (-2, 2, -2), (1, -1, 1), (1, -1, 1)],
  [(1, 1, 1), (-1, -1, 1), (1, -1, -1)],
  [(0, -2, -2), (0, 2, 2), (1, 1, 1)],
  [(1, 1, 1), (1, -1, -1)],
  [(4, 0, 0), (2, -2, -2), (1, -1, -1)],
  [(-2, 2, 2), (-1, 1, 1), (-2, 2, 2), (1, -1, -1)],
  [(3, -3, 3), (0, 2, 2), (-1, 1, -1), (-2, 0, 2)],
  [(0, -4, 0), (-2, 2, 2), (-1, 1, 1)],
  [(-3, -3, 3), (2, -2, 0), (0, 2, 2), (-1, -1, 1)],
  [(-1, 1, 1), (-2, 2, 2), (0, 0, 4)],
  [(1, 1, 1), (0, 2, 2), (0, 2, 2)],
  [(0, 2, 2), (0, 2, 2)],
  [(4, 0, 0), (2, 2, 2), (1, 1, 1), (1, 1, 1)],
  [(1, -1, 1), (-1, -1, 1), (1, 1, 1)],
  [(-2, 0, -2), (2, 0, 2), (1, 1, 1)],
  [(1, 1, 1), (1, -1, 1)],
  [(-2, -2, 0), (2, 2, 0), (1, 1, 1)],
  [(1, 1, 1), (-1, -1, 1)],
  [(1, 1, 1), (1, 1, 1)],
  [(1, 1, 1)]]

/-- Rows 128 to 159 of the normal lookup table, in units of 1/8. -/
def neighbourCodeNormalsEighths4 : List (List (ℤ × ℤ × ℤ)) := [
  [(1, 1, 1)],
  [(1, 1, 1), (1, 1, 1)],
  [(1, 1, 1), (-1, -1, 1)],
  [(-2, -2, 0), (2, 2, 0), (1, 1, 1)],
  [(1, 1, 1), (1, -1, 1)],
  [(-2, 0, -2), (2, 0, 2), (1, 1, 1)],
  [(1, -1, 1), (-1, -1, 1), (1, 1, 1)],
  [(4, 0, 0), (2, 2, 2), (1, 1, 1), (1, 1, 1)],
  [(0, 2, 2), (0, 2, 2)],
  [(1, 1, 1), (0, 2, 2), (0, 2, 2)],
  [(-1, 1, 1), (-2, 2, 2), (0, 0, 4)],
  [(-3, -3, 3), (2, -2, 0), (0, 2, 2), (-1, -1, 1)],
  [(0, -4, 0), (-2, 2, 2), (-1, 1, 1)],
  [(3, -3, 3), (0, 2, 2), (-1, 1, -1), (-2, 0, 2)],
  [(-2, 2, 2), (-1, 1, 1), (-2, 2, 2), (1, -1, -1)],
  [(4, 0, 0), (2, -2, -2), (1, -1, -1)],
  [(1, 1, 1), (1, -1, -1)],
  [(0, -2, -2), (0, 2, 2), (1, 1, 1)],
  [(1, 1, 1), (-1, -1, 1), (1, -1, -1)],
  [(0, 4, 0), (-2, 2, -2), (1, -1, 1), (1, -1, 1)],
  [(1, 1, 1), (1, -1, 1), (1, -1, -1)],
  [(0, 0, 4), (-2, -2, 2), (-1, -1, 1), (-1, -1, 1)],
  [(-1, 1, 1), (1, -1, 1), (-1, -1, 1), (1, 1, 1)],
  [(-1, 1, 1), (1, -1, 1), (-1, -1, 1)],
  [(0, 2, 2), (0, 2, 2), (1, -1, -1)],
  [(0, -2, -2), (0, 2, 2), (0, 2, 2), (0, 2, 2)],
  [(0, 0, 4), (2, -2, 2), (1, -1, 1), (1, -1, 1)],
  [(0, -2, 2), (0, -2, 2), (1, -1, 1)],
  [(0, -4, 0), (1, 1, -1), (2, 2, -2), (-1, -1, 1)],
  [(-1, -1, 1), (0, -2, 2), (0, 2, -2)],
  [(1, 1, 1), (-1, -1, 1), (1, -1, 1)],
  [(-1, -1, 1), (1, -1, 1)]]

/-- Rows 160 to 191 of the normal lookup table, in units of 1/8. -/
def neighbourCodeNormalsEighths5 : List (List (ℤ × ℤ × ℤ)) := [
  [(2, 0, 2), (2, 0, 2)],
  [(1, 1, 1), (2, 0, 2), (2, 0, 2)],
  [(0, 0, 4), (2, -2, 2), (1, -1, 1)],
  [(2, 0, 2), (-3, -3, 3), (-2, 2, 0), (-1, -1, 1)],
  [(1, -1, 1), (2, 0, 2), (2, 0, 2)],
  [(-2, 0, -2), (2, 0, 2), (2, 0, 2), (2, 0, 2)],
  [(0, 0, 4), (2, -2, 2), (1, -1, 1), (1, -1, 1)],
  [(-2, 0, 2), (2, 0, -2), (-1, 1, 1)],
  [(1, 1, 1), (2, 2, 2), (0, 0, 4)],
  [(1, 1, 1), (1, 1, 1), (2, 2, 2), (0, 0, 4)],
  [(0, 0, 4), (0, 0, 4)],
  [(0, 0, -4), (2, 2, -2), (-1, -1, 1)],
  [(-2, 0, -2), (-3, 3, 3), (-2, -2, 0), (-1, 1, 1)],
  [(-1, -1, 1), (-2, 0, 2), (2, 0, -2)],
  [(0, 0, 4), (-2, 2, 2), (-1, 1, 1)],
  [(-2, 0, 2), (2, 0, -2)],
  [(4, 0, 0), (-2, 2, -2), (1, -1, 1)],
  [(-2, 0, -2), (3, -3, -3), (0, 2, -2), (-1, 1, 1)],
  [(-2, 2, -2), (-2, 2, -2), (-1, 1, -1), (-1, 1, -1)],
  [(0, 4, 0), (-2, 2, -2), (1, -1, 1)],
  [(4, 0, 0), (-2, -2, 2), (-1, -1, 1), (-1, -1, 1)],
  [(-1, -1, 1), (-2, 0, 2), (-2, 0, 2)],
  [(1, 1, 1), (-1, -1, 1), (-1, 1, 1)],
  [(-1, -1, 1), (-1, 1, 1)],
  [(3, -3, 3), (0, -2, -2), (-1, 1, -1), (2, 2, 0)],
  [(0, -2, 2), (0, -2, 2), (-1, -1, 1)],
  [(0, 0, 4), (2, -2, 2), (1, -1, 1)],
  [(0, -2, 2), (0, -2, 2)],
  [(-1, -1, 1), (-2, -2, 0), (2, 2, 0)],
  [(-1, -1, 1), (-1, -1, 1)],
  [(1, 1, 1), (-1, -1, 1)],
  [(-1, -1, 1)]]

/-- Rows 192 to 223 of the normal lookup table, in units of 1/8. -/
def neighbourCodeNormalsEighths6 : List (List (ℤ × ℤ × ℤ)) := [
  [(-2, -2, 0), (-2, -2, 0)],
  [(1, 1, 1), (-2, -2, 0), (-2, -2, 0)],
  [(-2, -2, 0), (-2, -2, 0), (-1, -1, 1)],
  [(-2, -2, 0), (-2, -2, 0), (-2, -2, 0), (2, 2, 0)],
  [(0, 4, 0), (2, 2, -2), (-1, -1, 1)],
  [(-3, 3, -3), (-2, -2, 0), (-1, 1, -1), (-2, 0, 2)],
  [(0, 4, 0), (2, 2, -2), (-1, -1, 1), (-1, -1, 1)],
  [(-1, 1, 1), (2, -2, 0), (-2, 2, 0)],
  [(0, -4, 0), (-2, -2, -2), (-1, -1, -1)],
  [(1, 1, 1), (0, -4, 0), (-2, -2, -2), (-1, -1, -1)],
  [(-3, -3, -3), (-2, 0, 2), (-1, -1, -1), (-2, 2, 0)],
  [(2, -2, 0), (-2, 2, 0), (1, -1, 1)],
  [(0, 4, 0), (0, -4, 0)],
  [(0, 4, 0), (1, -1, 1), (-2, 2, -2)],
  [(0, 4, 0), (-2, 2, 2), (1, -1, -1)],
  [(2, -2, 0), (-2, 2, 0)],
  [(-4, 0, 0), (-2, -2, 2), (-1, -1, 1)],
  [(0, 2, -2), (3, -3, -3), (-1, 1, 1), (2, 2, 0)],
  [(4, 0, 0), (2, -2, 2), (-1, 1, -1), (1, -1, 1)],
  [(1, -1, 1), (2, -2, 0), (2, -2, 0)],
  [(2, 2, -2), (2, 2, -2), (1, 1, -1), (-1, -1, 1)],
  [(0, 0, 4), (-2, -2, 2), (-1, -1, 1)],
  [(1, 1, 1), (1, -1, 1), (-1, 1, 1)],
  [(-1, 1, 1), (1, -1, 1)],
  [(-3, -3, 3), (0, 2, 2), (1, 1, -1), (-2, 0, -2)],
  [(0, -2, 2), (0, 2, -2), (1, -1, 1)],
  [(1, -1, 1), (-2, 0, -2), (2, 0, 2)],
  [(1, -1, 1), (1, -1, 1)],
  [(0, -4, 0), (1, 1, -1), (2, 2, -2)],
  [(0, -2, 2), (0, 2, -2)],
  [(1, 1, 1), (1, -1, 1)],
  [(1, -1, 1)]]

/-- Rows 224 to 255 of the normal lookup table, in units of 1/8. -/
def neighbourCodeNormalsEighths7 : List (List (ℤ × ℤ × ℤ)) := [
  [(-4, 0, 0), (-1, -1, -1), (-2, -2, -2)],
  [(-4, 0, 0), (-1, -1, -1), (-2, -2, -2), (1, 1, 1)],
  [(3, 3, 3), (0, 2, -2), (-1, -1, -1), (-2, 2, 0)],
  [(1, -1, -1), (2, -2, 0), (2, -2, 0)],
  [(1, 1, 1), (3, 3, 3), (0, -2, 2), (-2, 0, 2)],
  [(-2, 0, 2), (-2, 0, 2), (1, -1, -1)],
  [(0, -2, -2), (0, 2, 2), (-1, 1, 1)],
  [(-1, 1, 1), (1, -1, -1)],
  [(-1, -1, -1), (-2, -2, -2), (2, 2, 2), (1, 1, 1)],
  [(-1, -1, 1), (1, -1, 1), (1, -1, -1)],
  [(0, 0, -4), (2, 2, 2), (-1, -1, -1)],
  [(1, -1, 1), (1, -1, -1)],
  [(0, -4, 0), (2, 2, 2), (1, 1, 1)],
  [(-1, -1, 1), (1, -1, -1)],
  [(0, -2, -2), (0, 2, 2)],
  [(1, -1, -1)],
  [(4, 0, 0), (4, 0, 0)],
  [(-4, 0, 0), (-2, 2, 2), (-1, 1, 1)],
  [(4, 0, 0), (2, -2, 2), (-1, 1, -1)],
  [(2, -2, 0), (2, -2, 0)],
  [(4, 0, 0), (-2, -2, 2), (-1, -1, 1)],
  [(-2, 0, 2), (-2, 0, 2)],
  [(1, 1, 1), (-1, 1, 1)],
  [(-1, 1, 1)],
  [(4, 0, 0), (2, 2, 2), (1, 1, 1)],
  [(1, -1, 1), (-1, -1, 1)],
  [(-2, 0, -2), (2, 0, 2)],
  [(1, -1, 1)],
  [(-2, -2, 0), (2, 2, 0)],
  [(-1, -1, 1)],
  [(1, 1, 1)],
  [(0, 0, 0)]]

/-- The 256-entry normal lookup table in units of 1/8: every float of the
source table (0.125, 0.25, 0.375, 0.5 and their negations, and -0.0) is an
exact multiple of 1/8, stored here as the integer multiplier (1, 2, 3, 4,
negated, and 0). Integer entries keep the table kernel-computable. -/
def neighbourCodeNormalsEighths : List (List (ℤ × ℤ × ℤ)) :=
  neighbourCodeNormalsEighths0 ++ neighbourCodeNormalsEighths1 ++ neighbourCodeNormalsEighths2 ++
    neighbourCodeNormalsEighths3 ++ neighbourCodeNormalsEighths4 ++ neighbourCodeNormalsEighths5 ++
    neighbourCodeNormalsEighths6 ++ neighbourCodeNormalsEighths7

/-- Transcription of the 256-entry marching-cubes normal lookup table
`neighbour_code_to_normals` of the source: entry by entry, the rational
value of each float component (0.125 = 1/8, 0.25 = 2/8, 0.375 = 3/8,
0.5 = 4/8, `-0.0` = 0), i.e. the integer table scaled by 1/8. -/
def neighbour_code_to_normals : List (List (ℚ × ℚ × ℚ)) :=
  neighbourCodeNormalsEighths.map (List.map (fun v =>
    ((v.1 : ℚ) / 8, (v.2.1 : ℚ) / 8, (v.2.2 : ℚ) / 8)))

/-- Squared Euclidean norm of the physical normal built from a unit-cube
normal `v` and the spacing triple: the source scales `v[0]` by
`spacing[1]*spacing[2]`, `v[1]` by `spacing[0]*spacing[2]` and `v[2]` by
`spacing[0]*spacing[1]` before taking `np.linalg.norm`. -/
def physNormSq (sp : ℚ × ℚ × ℚ) (v : ℚ × ℚ × ℚ) : ℚ :=
  (v.1 * sp.2.1 * sp.2.2) ^ 2 + (v.2.1 * sp.1 * sp.2.2) ^ 2 + (v.2.2 * sp.1 * sp.2.1) ^ 2

/-- The per-code surface area table `neighbour_code_to_surface_area` of the
source: for each code, the sum over its normals of the Euclidean norm of the
physical normal. -/
noncomputable def neighbour_code_to_surface_area (sp : ℚ × ℚ × ℚ) (code : ℕ) : ℝ :=
  ((neighbour_code_to_normals.getD code []).map (fun v => Real.sqrt ((physNormSq sp v : ℚ) : ℝ))).sum

/-- Guarded volume read at integer coordinates: `false` outside the array
(this is `mode = "constant", cval = 0` of the correlation). -/
def maskGet (n : Shape) (m : Mask) (p : ℤ × ℤ × ℤ) : Bool :=
  if 0 ≤ p.1 ∧ p.1 < (n.1 : ℤ) ∧ 0 ≤ p.2.1 ∧ p.2.1 < (n.2.1 : ℤ) ∧ 0 ≤ p.2.2 ∧ p.2.2 < (n.2.2 : ℤ)
  then m p.1.toNat p.2.1.toNat p.2.2.toNat else false

/-- One bit of the 2×2×2 neighbourhood, as 0 or 1. -/
def bitAt (n : Shape) (m : Mask) (p : ℤ × ℤ × ℤ) : ℕ := (maskGet n m p).toNat

/-- The neighbour code of the corner point `p`: the correlation of the mask
with the kernel `[[[128,64],[32,16]],[[8,4],[2,1]]]`, whose origin scipy puts
at kernel index (1,1,1), so weight `K[d]` multiplies the voxel `p - 1 + d`. -/
def neighbourCode (n : Shape) (m : Mask) (p : ℤ × ℤ × ℤ) : ℕ :=
  128 * bitAt n m (p.1 - 1, p.2.1 - 1, p.2.2 - 1) +
   64 * bitAt n m (p.1 - 1, p.2.1 - 1, p.2.2) +
   32 * bitAt n m (p.1 - 1, p.2.1, p.2.2 - 1) +
   16 * bitAt n m (p.1 - 1, p.2.1, p.2.2) +
    8 * bitAt n m (p.1, p.2.1 - 1, p.2.2 - 1) +
    4 * bitAt n m (p.1, p.2.1 - 1, p.2.2) +
    2 * bitAt n m (p.1, p.2.1, p.2.2 - 1) +
        bitAt n m (p.1, p.2.1, p.2.2)

/-- Border predicate: the neighbour code is neither 0 nor 255. -/
def isBorder (n : Shape) (m : Mask) (p : ℤ × ℤ × ℤ) : Bool :=
  decide (neighbourCode n m p ≠ 0 ∧ neighbourCode n m p ≠ 255)

/-- All corner points of a grid of shape `g`, in C (row-major) order — the
order in which numpy boolean indexing enumerates the true positions. -/
def corners (g : Shape) : List (ℤ × ℤ × ℤ) :=
  (List.range g.1).flatMap (fun i => (List.range g.2.1).flatMap (fun j =>
    (List.range g.2.2).map (fun k : ℕ => ((i : ℤ), (j : ℤ), (k : ℤ)))))

/-- The border corner points (`borders_gt` / `borders_pred` of the source) of
the volume `m` of shape `n`, over the corner grid `g`, in C order. -/
def borderList (n : Shape) (m : Mask) (g : Shape) : List (ℤ × ℤ × ℤ) :=
  (corners g).filter (isBorder n m)

/-- Squared physical distance between two corner points under the anisotropic
spacing (the quantity whose square root `distance_transform_edt` returns). -/
def distSq (sp : ℚ × ℚ × ℚ) (p q : ℤ × ℤ × ℤ) : ℚ :=
  (sp.1 * ((p.1 - q.1 : ℤ) : ℚ)) ^ 2 + (sp.2.1 * ((p.2.1 - q.2.1 : ℤ) : ℚ)) ^ 2 +
    (sp.2.2 * ((p.2.2 - q.2.2 : ℤ) : ℚ)) ^ 2

/-- Value of the exact Euclidean distance transform of the border set `qs`
at the point `p`: the minimum physical distance to a border point, `⊤` when
the border set is empty (the `np.Inf * np.ones` branch of the source). -/
noncomputable def distToSurface (sp : ℚ × ℚ × ℚ) (p : ℤ × ℤ × ℤ) (qs : List (ℤ × ℤ × ℤ)) : WithTop ℝ :=
  (qs.map (fun q => ((Real.sqrt ((distSq sp p q : ℚ) : ℝ) : ℝ) : WithTop ℝ))).foldr min ⊤

/-- Union mask `mask_all = mask_gt | mask_pred`. -/
def maskUnion (a b : Mask) : Mask := fun i j k => a i j k || b i j k

/-- Indices of the nonzero entries of the maximum projection of `u` onto the
x0 axis (`np.nonzero(np.max(np.max(mask_all, axis=2), axis=1))[0]`), in
increasing order. -/
def idxNonzero0 (n : Shape) (u : Mask) : List ℕ :=
  (List.range n.1).filter (fun i =>
    (List.range n.2.1).any (fun j => (List.range n.2.2).any (fun k => u i j k)))

/-- Indices of the nonzero entries of the maximum projection onto the x1 axis. -/
def idxNonzero1 (n : Shape) (u : Mask) : List ℕ :=
  (List.range n.2.1).filter (fun j =>
    (List.range n.1).any (fun i => (List.range n.2.2).any (fun k => u i j k)))

/-- Indices of the nonzero entries of the maximum projection onto the x2 axis. -/
def idxNonzero2 (n : Shape) (u : Mask) : List ℕ :=
  (List.range n.2.2).filter (fun k =>
    (List.range n.1).any (fun i => (List.range n.2.1).any (fun j => u i j k)))

/-- The bounding-box minimum `bbox_min`: `np.min` of each axis index list,
which is its head since the lists are increasing. -/
def bboxMin (n : Shape) (u : Mask) : Shape :=
  ((idxNonzero0 n u).headD 0, (idxNonzero1 n u).headD 0, (idxNonzero2 n u).headD 0)

/-- The bounding-box maximum `bbox_max`: `np.max` of each axis index list,
which is its last element since the lists are increasing. -/
def bboxMax (n : Shape) (u : Mask) : Shape :=
  ((idxNonzero0 n u).getLastD 0, (idxNonzero1 n u).getLastD 0, (idxNonzero2 n u).getLastD 0)

/-- Shape `(bbox_max - bbox_min) + 2` of the cropped, one-voxel-padded
processing subvolume. -/
def cropShape (bmin bmax : Shape) : Shape :=
  (bmax.1 - bmin.1 + 2, bmax.2.1 - bmin.2.1 + 2, bmax.2.2 - bmin.2.2 + 2)

/-- The cropped mask: `cropmask[0:-1,0:-1,0:-1] = mask[bbox_min:bbox_max+1,...]`
into an array of zeros of shape `cropShape`, i.e. the data occupies indices
`< bbox_max - bbox_min + 1` on every axis and the final index of each axis is
the zero padding on the maximum side. -/
def cropPad (m : Mask) (bmin bmax : Shape) : Mask := fun i j k =>
  if i < bmax.1 - bmin.1 + 1 ∧ j < bmax.2.1 - bmin.2.1 + 1 ∧ k < bmax.2.2 - bmin.2.2 + 1
  then m (bmin.1 + i) (bmin.2.1 + j) (bmin.2.2 + k) else false

/-- A natural-number shape triple as integer corner coordinates (used to
translate corner points of the cropped subvolume back into the uncropped
volume). -/
def natTripleZ (v : Shape) : ℤ × ℤ × ℤ := ((v.1 : ℤ), (v.2.1 : ℤ), (v.2.2 : ℤ))

/-- Strict lexicographic (row-major) order on corner points: the order in
which `corners` enumerates a grid. -/
def cornerLexLT (p q : ℤ × ℤ × ℤ) : Prop :=
  p.1 < q.1 ∨ (p.1 = q.1 ∧ (p.2.1 < q.2.1 ∨ (p.2.1 = q.2.1 ∧ p.2.2 < q.2.2)))

/-- Reflexive closure of `cornerLexLT`. -/
def cornerLexLE (p q : ℤ × ℤ × ℤ) : Prop := cornerLexLT p q ∨ p = q

/-- One direction of the surfel collection: for every border corner of
`mSelf` (in C order), the pair of its value in the distance transform of the
border of `mOpp` (`distmap[borders]`) and its surfel area
(`surface_area_map[borders]`). `ns` is the shape used for the guarded reads,
`g` the corner grid. -/
noncomputable def collectPairs (ns g : Shape) (mSelf mOpp : Mask) (sp : ℚ × ℚ × ℚ) :
    List (WithTop ℝ × ℝ) :=
  (borderList ns mSelf g).map (fun p =>
    (distToSurface sp p (borderList ns mOpp g),
     neighbour_code_to_surface_area sp (neighbourCode ns mSelf p)))

/-- Lexicographic order on (distance, area) pairs: the order used by python's
`sorted(zip(distances, areas))`. -/
def pairLE (x y : WithTop ℝ × ℝ) : Prop := x.1 < y.1 ∨ (x.1 = y.1 ∧ x.2 ≤ y.2)

noncomputable instance : DecidableRel pairLE := fun _ _ => Classical.dec _

/-- Sorting of the (distance, area) pairs, `sorted(zip(distances, areas))`. -/
noncomputable def sortPairs (l : List (WithTop ℝ × ℝ)) : List (WithTop ℝ × ℝ) :=
  List.insertionSort pairLE l

/-- The surfel pairs of the `a`-surface against the `b`-surface, computed on
the cropped and padded subvolumes determined by `bmin`/`bmax`. -/
noncomputable def croppedPairs (a b : Mask) (bmin bmax : Shape) (sp : ℚ × ℚ × ℚ) :
    List (WithTop ℝ × ℝ) :=
  collectPairs (cropShape bmin bmax) (cropShape bmin bmax) (cropPad a bmin bmax) (cropPad b bmin bmax) sp

/-- The unsorted (distance, area) pairs of the gt→pred direction produced by
`compute_surface_distances`, including its early return of empty arrays when
the union mask is empty. -/
noncomputable def surfelPairsGt (n : Shape) (mask_gt mask_pred : Mask) (sp : ℚ × ℚ × ℚ) :
    List (WithTop ℝ × ℝ) :=
  if (idxNonzero0 n (maskUnion mask_gt mask_pred)).isEmpty then []
  else croppedPairs mask_gt mask_pred (bboxMin n (maskUnion mask_gt mask_pred))
    (bboxMax n (maskUnion mask_gt mask_pred)) sp

/-- The unsorted (distance, area) pairs of the pred→gt direction. -/
noncomputable def surfelPairsPred (n : Shape) (mask_gt mask_pred : Mask) (sp : ℚ × ℚ × ℚ) :
    List (WithTop ℝ × ℝ) :=
  if (idxNonzero0 n (maskUnion mask_gt mask_pred)).isEmpty then []
  else croppedPairs mask_pred mask_gt (bboxMin n (maskUnion mask_gt mask_pred))
    (bboxMax n (maskUnion mask_gt mask_pred)) sp

/-- The result record of `compute_surface_distances` (the returned dict). -/
structure SurfaceDistanceSet (α : Type) where
  distances_gt_to_pred : List (WithTop α)
  distances_pred_to_gt : List (WithTop α)
  surfel_areas_gt : List α
  surfel_areas_pred : List α
deriving DecidableEq

/-- The function `compute_surface_distances(mask_gt, mask_pred, spacing_mm)`:
sort each direction's pairs by distance (keeping each area with its distance)
and return the four columns. On an empty union mask every list is empty. -/
noncomputable def compute_surface_distances (n : Shape) (mask_gt mask_pred : Mask)
    (sp : ℚ × ℚ × ℚ) : SurfaceDistanceSet ℝ :=
  { distances_gt_to_pred := (sortPairs (surfelPairsGt n mask_gt mask_pred sp)).map Prod.fst
    distances_pred_to_gt := (sortPairs (surfelPairsPred n mask_gt mask_pred sp)).map Prod.fst
    surfel_areas_gt := (sortPairs (surfelPairsGt n mask_gt mask_pred sp)).map Prod.snd
    surfel_areas_pred := (sortPairs (surfelPairsPred n mask_gt mask_pred sp)).map Prod.snd }

/-- Modelled from the spec: the reference (uncropped) computation that the
cropping is claimed to refine — the full 2×2×2 correlation on the uncropped
volumes, whose corner grid is `n+1` on every axis (every corner point at
which the kernel overlaps the volume), with no cropping and no padding;
borders, distances and areas are collected and sorted exactly as in
`compute_surface_distances`. -/
noncomputable def computeSurfaceDistancesFull (n : Shape) (mask_gt mask_pred : Mask)
    (sp : ℚ × ℚ × ℚ) : SurfaceDistanceSet ℝ :=
  { distances_gt_to_pred :=
      (sortPairs (collectPairs n (n.1 + 1, n.2.1 + 1, n.2.2 + 1) mask_gt mask_pred sp)).map Prod.fst
    distances_pred_to_gt :=
      (sortPairs (collectPairs n (n.1 + 1, n.2.1 + 1, n.2.2 + 1) mask_pred mask_gt sp)).map Prod.fst
    surfel_areas_gt :=
      (sortPairs (collectPairs n (n.1 + 1, n.2.1 + 1, n.2.2 + 1) mask_gt mask_pred sp)).map Prod.snd
    surfel_areas_pred :=
      (sortPairs (collectPairs n (n.1 + 1, n.2.1 + 1, n.2.2 + 1) mask_pred mask_gt sp)).map Prod.snd }

variable {α : Type} [LinearOrderedField α]

/-- Cumulative sums, `np.cumsum`. -/
def cumsum (as : List α) : List α :=
  (List.range as.length).map (fun i => (as.take (i + 1)).sum)

/-- Cumulative area fractions `np.cumsum(areas) / np.sum(areas)`. -/
def cumFractions (as : List α) : List α := (cumsum as).map (fun x => x / as.sum)

/-- Embedding of `np.searchsorted(xs, v)` (left side) on a sorted array: the
number of entries strictly less than `v`, which is the first index whose
entry is `≥ v` (or the length when there is none). -/
def searchsorted (xs : List α) (v : α) : ℕ := xs.countP (fun x => decide (x < v))

/-- One direction of `compute_robust_hausdorff`: when the direction has
surfels, the distance at index `min(searchsorted(cum, percent/100), len-1)`;
otherwise `np.Inf`. -/
def hausdorffDir (ds : List (WithTop α)) (as : List α) (percent : α) : WithTop α :=
  if 0 < ds.length then
    ds.getD (min (searchsorted (cumFractions as) (percent / 100)) (ds.length - 1)) ⊤
  else ⊤

/-- The function `compute_robust_hausdorff(surface_distances, percent)`. -/
def compute_robust_hausdorff (s : SurfaceDistanceSet α) (percent : α) : WithTop α :=
  max (hausdorffDir s.distances_gt_to_pred s.surfel_areas_gt percent)
    (hausdorffDir s.distances_pred_to_gt s.surfel_areas_pred percent)

/-- Modelled from the spec: one direction of the robust Hausdorff described
as "the distance at the first index whose cumulative area fraction is
`≥ percent/100`, the index clamped to the last valid position"; `List.findIdx`
is that first index (it is the length when no index qualifies). -/
def hausdorffDirFirstIndex (ds : List (WithTop α)) (as : List α) (percent : α) : WithTop α :=
  if 0 < ds.length then
    ds.getD (min ((cumFractions as).findIdx (fun x => decide (percent / 100 ≤ x))) (ds.length - 1)) ⊤
  else ⊤

/-- The sum `np.sum(distances * surfel_areas)`; `⊤` is absorbing, matching
`inf * a = inf` and `inf + x = inf` for the positive areas the pipeline
produces. -/
def weightedSum (ds : List (WithTop α)) (as : List α) : WithTop α :=
  (List.zipWith (fun d a => WithTop.map (fun x => x * a) d) ds as).sum

/-- One direction of the average surface distance; `none` encodes the IEEE
`NaN` that `np.sum(d*a)/np.sum(a)` yields as `0/0` when the direction has no
surfel area. -/
def avgDir (ds : List (WithTop α)) (as : List α) : Option (WithTop α) :=
  if as.sum = 0 then none else some (WithTop.map (fun x => x / as.sum) (weightedSum ds as))

/-- The function `compute_average_surface_distance(surface_distances)`. -/
def compute_average_surface_distance (s : SurfaceDistanceSet α) :
    Option (WithTop α) × Option (WithTop α) :=
  (avgDir s.distances_gt_to_pred s.surfel_areas_gt,
   avgDir s.distances_pred_to_gt s.surfel_areas_pred)

/-- The overlap numerator `np.sum(surfel_areas[distances <= tolerance_mm])`. -/
def overlapSum (ds : List (WithTop α)) (as : List α) (tol : α) : α :=
  (List.zipWith (fun d a => if d ≤ (tol : WithTop α) then a else 0) ds as).sum

/-- One direction of the surface overlap; `none` encodes the `NaN` from the
`0/0` arising when the direction has no surfel area. -/
def overlapDir (ds : List (WithTop α)) (as : List α) (tol : α) : Option α :=
  if as.sum = 0 then none else some (overlapSum ds as tol / as.sum)

/-- The function `compute_surface_overlap_at_tolerance(surface_distances, tolerance_mm)`. -/
def compute_surface_overlap_at_tolerance (s : SurfaceDistanceSet α) (tol : α) :
    Option α × Option α :=
  (overlapDir s.distances_gt_to_pred s.surfel_areas_gt tol,
   overlapDir s.distances_pred_to_gt s.surfel_areas_pred tol)

/-- The function `compute_surface_dice_at_tolerance(surface_distances, tolerance_mm)`;
`none` encodes the `NaN` from `0/0` when there is no surfel area at all. -/
def compute_surface_dice_at_tolerance (s : SurfaceDistanceSet α) (tol : α) : Option α :=
  if s.surfel_areas_gt.sum + s.surfel_areas_pred.sum = 0 then none
  else some ((overlapSum s.distances_gt_to_pred s.surfel_areas_gt tol +
      overlapSum s.distances_pred_to_gt s.surfel_areas_pred tol) /
    (s.surfel_areas_gt.sum + s.surfel_areas_pred.sum))

/-- A volume is entirely false on its shape. -/
def allFalse (n : Shape) (m : Mask) : Prop :=
  ∀ i < n.1, ∀ j < n.2.1, ∀ k < n.2.2, m i j k = false

/-- A volume has a true voxel inside its shape. -/
def maskNonempty (n : Shape) (m : Mask) : Prop :=
  ∃ i < n.1, ∃ j < n.2.1, ∃ k < n.2.2, m i j k = true

/-- Componentwise positivity of a spacing triple. -/
def spacingPos (sp : ℚ × ℚ × ℚ) : Prop := 0 < sp.1 ∧ 0 < sp.2.1 ∧ 0 < sp.2.2

instance (n : Shape) (m : Mask) : Decidable (allFalse n m) := by
  unfold allFalse
  infer_instance

instance (n : Shape) (m : Mask) : Decidable (maskNonempty n m) := by
  unfold maskNonempty
  infer_instance

instance (sp : ℚ × ℚ × ℚ) : Decidable (spacingPos sp) := by
  unfold spacingPos
  infer_instance

end SurfaceDist

namespace SurfaceDist

/-! Helper lemmas about the pair sort. -/

theorem zip_map_fst_snd {β γ : Type*} : ∀ l : List (β × γ), (l.map Prod.fst).zip (l.map Prod.snd) = l
  | [] => rfl
  | x :: l => by simp [zip_map_fst_snd l]

instance : IsTotal (WithTop ℝ × ℝ) pairLE := ⟨by
  intro x y
  rcases lt_trichotomy x.1 y.1 with h | h | h
  · exact Or.inl (Or.inl h)
  · rcases le_total x.2 y.2 with h2 | h2
    · exact Or.inl (Or.inr ⟨h, h2⟩)
    · exact Or.inr (Or.inr ⟨h.symm, h2⟩)
  · exact Or.inr (Or.inl h)⟩

instance : IsTrans (WithTop ℝ × ℝ) pairLE := ⟨by
  intro a b c hab hbc
  rcases hab with h1 | ⟨e1, l1⟩ <;> rcases hbc with h2 | ⟨e2, l2⟩
  · exact Or.inl (h1.trans h2)
  · exact Or.inl (e2 ▸ h1)
  · exact Or.inl (e1 ▸ h2)
  · exact Or.inr ⟨e1.trans e2, l1.trans l2⟩⟩

theorem sortPairs_sorted (l : List (WithTop ℝ × ℝ)) : (sortPairs l).Sorted pairLE :=
  List.sorted_insertionSort pairLE l

theorem sortPairs_perm (l : List (WithTop ℝ × ℝ)) : (sortPairs l).Perm l :=
  List.perm_insertionSort pairLE l

theorem sortPairs_fst_sorted (l : List (WithTop ℝ × ℝ)) :
    ((sortPairs l).map Prod.fst).Sorted (· ≤ ·) := by
  have h := sortPairs_sorted l
  rw [List.Sorted, List.pairwise_map]
  exact h.imp (fun hab => by
    rcases hab with h1 | ⟨e1, _⟩
    · exact le_of_lt h1
    · exact le_of_eq e1)

/-- C3: the two (distance, area) sequences returned by
`compute_surface_distances` are each sorted ascending by distance, and the
pairing of each area with its sampled distance is preserved: zipping the
returned distance column with the returned area column gives a permutation
of the unsorted collected (distance, area) pairs of that direction. -/
theorem surface_distances_sorted_and_paired (n : Shape) (mask_gt mask_pred : Mask)
    (sp : ℚ × ℚ × ℚ) :
    (compute_surface_distances n mask_gt mask_pred sp).distances_gt_to_pred.Sorted (· ≤ ·) ∧
    (compute_surface_distances n mask_gt mask_pred sp).distances_pred_to_gt.Sorted (· ≤ ·) ∧
    ((compute_surface_distances n mask_gt mask_pred sp).distances_gt_to_pred.zip
        (compute_surface_distances n mask_gt mask_pred sp).surfel_areas_gt).Perm
      (surfelPairsGt n mask_gt mask_pred sp) ∧
    ((compute_surface_distances n mask_gt mask_pred sp).distances_pred_to_gt.zip
        (compute_surface_distances n mask_gt mask_pred sp).surfel_areas_pred).Perm
      (surfelPairsPred n mask_gt mask_pred sp) := by
  refine ⟨sortPairs_fst_sorted _, sortPairs_fst_sorted _, ?_, ?_⟩ <;>
    · show ((sortPairs _).map Prod.fst).zip ((sortPairs _).map Prod.snd) |>.Perm _
      rw [zip_map_fst_snd]
      exact sortPairs_perm _

end SurfaceDist

namespace SurfaceDist

/-! Helper lemmas about cumulative fractions and searchsorted. -/

variable {α : Type} [LinearOrderedField α]

theorem sum_take_le_sum_take (as : List α) (h : ∀ a ∈ as, 0 ≤ a) {i j : ℕ} (hij : i ≤ j) :
    (as.take i).sum ≤ (as.take j).sum := by
  have hsplit : as.take j = as.take i ++ (as.drop i).take (j - i) := by
    rw [← List.take_add]
    congr 1
    omega
  rw [hsplit, List.sum_append]
  refine le_add_of_nonneg_right (List.sum_nonneg ?_)
  intro x hx
  exact h x (List.drop_subset i as (List.take_subset _ _ hx))

theorem cumFractions_sorted (as : List α) (h : ∀ a ∈ as, 0 ≤ a) :
    (cumFractions as).Sorted (· ≤ ·) := by
  unfold cumFractions cumsum
  rw [List.Sorted, List.pairwise_map, List.pairwise_map]
  refine (List.pairwise_lt_range as.length).imp ?_
  intro i j hij
  exact div_le_div_of_nonneg_right (sum_take_le_sum_take as h (by omega)) (List.sum_nonneg h)

theorem countP_lt_eq_findIdx_le (v : α) :
    ∀ xs : List α, xs.Sorted (· ≤ ·) →
      xs.countP (fun x => decide (x < v)) = xs.findIdx (fun x => decide (v ≤ x))
  | [], _ => rfl
  | x :: xs, h => by
    rw [List.countP_cons, List.findIdx_cons]
    rcases le_or_lt v x with hvx | hxv
    · have htail : xs.countP (fun y => decide (y < v)) = 0 :=
        List.countP_eq_zero.2 (fun y hy => by
          simp only [decide_eq_true_eq, not_lt]
          exact hvx.trans ((List.sorted_cons.1 h).1 y hy))
      simp [htail, not_lt.2 hvx, hvx]
    · rw [countP_lt_eq_findIdx_le v xs (List.sorted_cons.1 h).2]
      simp [hxv, not_le.2 hxv]

theorem hausdorffDir_eq_firstIndex (ds : List (WithTop α)) (as : List α) (percent : α)
    (h : ∀ a ∈ as, 0 ≤ a) :
    hausdorffDir ds as percent = hausdorffDirFirstIndex ds as percent := by
  unfold hausdorffDir hausdorffDirFirstIndex searchsorted
  rw [countP_lt_eq_findIdx_le _ _ (cumFractions_sorted as h)]

/-- C2: for every surface-distance set (with its nonnegative surfel areas)
and every percent in [0,100], `compute_robust_hausdorff` equals, per
direction, the distance at the first index whose cumulative area fraction
(cumulative sum of areas divided by the total area) is at least
`percent/100`, the index clamped to the last valid position; a direction
with zero surfels contributes `⊤`; and the result is the maximum of the two
per-direction values (`hausdorffDirFirstIndex` is that description). -/
theorem robust_hausdorff_first_index (s : SurfaceDistanceSet α) (percent : α)
    (h0 : 0 ≤ percent) (h100 : percent ≤ 100)
    (hgt : ∀ a ∈ s.surfel_areas_gt, 0 ≤ a) (hpred : ∀ a ∈ s.surfel_areas_pred, 0 ≤ a) :
    compute_robust_hausdorff s percent =
      max (hausdorffDirFirstIndex s.distances_gt_to_pred s.surfel_areas_gt percent)
        (hausdorffDirFirstIndex s.distances_pred_to_gt s.surfel_areas_pred percent) := by
  unfold compute_robust_hausdorff
  rw [hausdorffDir_eq_firstIndex _ _ _ hgt, hausdorffDir_eq_firstIndex _ _ _ hpred]

/-- Witness for C2 at a concrete surface-distance set over ℚ. -/
theorem robust_hausdorff_first_index_witness :
    (0 : ℚ) ≤ 95 ∧ (95 : ℚ) ≤ 100 ∧
    (∀ a ∈ [(1 : ℚ), 2], 0 ≤ a) ∧ (∀ a ∈ [(3 : ℚ)], 0 ≤ a) ∧
    compute_robust_hausdorff
        (SurfaceDistanceSet.mk [((1 : ℚ) : WithTop ℚ), ((4 : ℚ) : WithTop ℚ)]
          [((2 : ℚ) : WithTop ℚ)] [(1 : ℚ), 2] [(3 : ℚ)]) 95 =
      max (hausdorffDirFirstIndex [((1 : ℚ) : WithTop ℚ), ((4 : ℚ) : WithTop ℚ)] [(1 : ℚ), 2] 95)
        (hausdorffDirFirstIndex [((2 : ℚ) : WithTop ℚ)] [(3 : ℚ)] 95) :=
  ⟨by norm_num, by norm_num, by decide, by decide,
    robust_hausdorff_first_index _ 95 (by norm_num) (by norm_num) (by decide) (by decide)⟩

end SurfaceDist

namespace SurfaceDist

variable {α : Type} [LinearOrderedField α]

theorem getD_le_getD_of_sorted {γ : Type*} [Preorder γ] {l : List γ} (hs : l.Sorted (· ≤ ·))
    {i j : ℕ} (hij : i ≤ j) (hj : j < l.length) (d : γ) : l.getD i d ≤ l.getD j d := by
  rw [List.getD_eq_getElem l d (lt_of_le_of_lt hij hj), List.getD_eq_getElem l d hj]
  rcases eq_or_lt_of_le hij with rfl | hlt
  · exact le_refl _
  · have := hs.rel_get_of_lt (a := ⟨i, lt_of_le_of_lt hij hj⟩) (b := ⟨j, hj⟩) hlt
    simpa using this

theorem hausdorffDir_mono (ds : List (WithTop α)) (as : List α) {p1 p2 : α}
    (hs : ds.Sorted (· ≤ ·)) (hp : p1 ≤ p2) :
    hausdorffDir ds as p1 ≤ hausdorffDir ds as p2 := by
  unfold hausdorffDir
  split
  case isTrue h =>
    have hcount : searchsorted (cumFractions as) (p1 / 100) ≤
        searchsorted (cumFractions as) (p2 / 100) := by
      refine List.countP_mono_left ?_
      intro x _ hx
      simp only [decide_eq_true_eq] at hx ⊢
      exact lt_of_lt_of_le hx (div_le_div_of_nonneg_right hp (by norm_num))
    exact getD_le_getD_of_sorted hs (min_le_min hcount (le_refl _)) (by omega) _
  case isFalse => exact le_refl ⊤

theorem cumFractions_length (as : List α) : (cumFractions as).length = as.length := by
  simp [cumFractions, cumsum]

theorem le_countP_of_front {γ : Type*} (p : γ → Bool) (l : List γ) (k : ℕ) (hk : k ≤ l.length)
    (h : ∀ i (h2 : i < k), p (l.get ⟨i, lt_of_lt_of_le h2 hk⟩) = true) : k ≤ l.countP p := by
  have hsplit := List.take_append_drop k l
  have : l.countP p = (l.take k).countP p + (l.drop k).countP p := by
    conv_lhs => rw [← hsplit]
    exact List.countP_append _ _ _
  have htake : (l.take k).countP p = (l.take k).length := by
    refine List.countP_eq_length.2 ?_
    intro a ha
    rcases List.mem_iff_getElem.1 ha with ⟨i, hi, rfl⟩
    rw [List.getElem_take]
    have hik : i < k := by
      rw [List.length_take] at hi
      omega
    have := h i hik
    simpa [List.get_eq_getElem] using this
  have hlen : (l.take k).length = k := by
    rw [List.length_take]
    omega
  rw [hlen] at htake
  omega

theorem cumFractions_front_lt_one (as : List α) (hpos : ∀ a ∈ as, 0 < a) {i : ℕ}
    (hi : i < as.length - 1) (hlen : i < (cumFractions as).length) :
    (cumFractions as).get ⟨i, hlen⟩ < 1 := by
  have hT : 0 < as.sum :=
    List.sum_pos as hpos (by
      intro hnil
      rw [hnil] at hi
      simp at hi)
  have hval : (cumFractions as).get ⟨i, hlen⟩ = (as.take (i + 1)).sum / as.sum := by
    simp only [List.get_eq_getElem, cumFractions, cumsum, List.getElem_map, List.getElem_range]
  rw [hval, div_lt_one hT]
  have hdrop : 0 < (as.drop (i + 1)).sum := by
    refine List.sum_pos _ (fun x hx => hpos x (List.drop_subset _ as hx)) ?_
    have : (as.drop (i + 1)).length = as.length - (i + 1) := List.length_drop _ _
    intro hnil
    rw [hnil] at this
    simp at this
    omega
  have hsum : (as.take (i + 1)).sum + (as.drop (i + 1)).sum = as.sum := by
    rw [← List.sum_append, List.take_append_drop]
  linarith

theorem hausdorffDir_100_ge (ds : List (WithTop α)) (as : List α)
    (hs : ds.Sorted (· ≤ ·)) (hpos : ∀ a ∈ as, 0 < a) (hlen : ds.length = as.length) :
    ∀ d ∈ ds, d ≤ hausdorffDir ds as 100 := by
  intro d hd
  have hne : ds ≠ [] := by rintro rfl; simp at hd
  have hlen0 : 0 < ds.length := List.length_pos.2 hne
  unfold hausdorffDir
  rw [if_pos hlen0]
  have hfrac : (100 : α) / 100 = 1 := by norm_num
  have hidx : ds.length - 1 ≤ searchsorted (cumFractions as) ((100 : α) / 100) := by
    unfold searchsorted
    refine le_countP_of_front _ _ (ds.length - 1) (by rw [cumFractions_length]; omega) ?_
    intro i h2
    have hi2 : i < (cumFractions as).length := by rw [cumFractions_length]; omega
    simp only [decide_eq_true_eq, hfrac]
    exact cumFractions_front_lt_one as hpos (by omega) hi2
  have hmin : min (searchsorted (cumFractions as) ((100 : α) / 100)) (ds.length - 1) =
      ds.length - 1 := Nat.min_eq_right hidx
  rw [hmin]
  rcases List.mem_iff_getElem.1 hd with ⟨i, hi, rfl⟩
  have := getD_le_getD_of_sorted hs (i := i) (j := ds.length - 1) (by omega) (by omega) ⊤
  rwa [List.getD_eq_getElem ds ⊤ hi] at this

/-- C7: for a fixed surface-distance set (with the data-model invariants:
distances sorted ascending, areas positive, parallel sequences of equal
length), `compute_robust_hausdorff` is monotone in the percent, and its
value at percent 100 dominates every individual surfel distance of either
direction. -/
theorem robust_hausdorff_monotone (s : SurfaceDistanceSet α) (p1 p2 : α)
    (hs1 : s.distances_gt_to_pred.Sorted (· ≤ ·))
    (hs2 : s.distances_pred_to_gt.Sorted (· ≤ ·))
    (ha1 : ∀ a ∈ s.surfel_areas_gt, 0 < a) (ha2 : ∀ a ∈ s.surfel_areas_pred, 0 < a)
    (hl1 : s.distances_gt_to_pred.length = s.surfel_areas_gt.length)
    (hl2 : s.distances_pred_to_gt.length = s.surfel_areas_pred.length)
    (hp : p1 ≤ p2) :
    compute_robust_hausdorff s p1 ≤ compute_robust_hausdorff s p2 ∧
      ∀ d, d ∈ s.distances_gt_to_pred ∨ d ∈ s.distances_pred_to_gt →
        d ≤ compute_robust_hausdorff s 100 := by
  constructor
  · exact max_le_max (hausdorffDir_mono _ _ hs1 hp) (hausdorffDir_mono _ _ hs2 hp)
  · rintro d (hd | hd)
    · exact (hausdorffDir_100_ge _ _ hs1 ha1 hl1 d hd).trans (le_max_left _ _)
    · exact (hausdorffDir_100_ge _ _ hs2 ha2 hl2 d hd).trans (le_max_right _ _)

/-- Witness for C7 at a concrete surface-distance set over ℚ. -/
theorem robust_hausdorff_monotone_witness :
    ([((1 : ℚ) : WithTop ℚ), ((4 : ℚ) : WithTop ℚ)].Sorted (· ≤ ·)) ∧
    ([((2 : ℚ) : WithTop ℚ)].Sorted (· ≤ ·)) ∧
    (∀ a ∈ [(1 : ℚ), 3], 0 < a) ∧ (∀ a ∈ [(5 : ℚ)], 0 < a) ∧ (5 : ℚ) ≤ 80 ∧
    (compute_robust_hausdorff
        (SurfaceDistanceSet.mk [((1 : ℚ) : WithTop ℚ), ((4 : ℚ) : WithTop ℚ)]
          [((2 : ℚ) : WithTop ℚ)] [(1 : ℚ), 3] [(5 : ℚ)]) 5 ≤
      compute_robust_hausdorff
        (SurfaceDistanceSet.mk [((1 : ℚ) : WithTop ℚ), ((4 : ℚ) : WithTop ℚ)]
          [((2 : ℚ) : WithTop ℚ)] [(1 : ℚ), 3] [(5 : ℚ)]) 80) :=
  ⟨by decide, by decide, by decide, by decide, by norm_num,
    (robust_hausdorff_monotone _ 5 80 (by decide) (by decide) (by decide) (by decide)
      (by decide) (by decide) (by norm_num)).1⟩

end SurfaceDist

namespace SurfaceDist

theorem idxNonzero0_allFalse {n : Shape} {mask_gt mask_pred : Mask}
    (hgt : allFalse n mask_gt) (hpred : allFalse n mask_pred) :
    idxNonzero0 n (maskUnion mask_gt mask_pred) = [] := by
  unfold idxNonzero0
  rw [List.filter_eq_nil_iff]
  intro i hi
  simp only [List.any_eq_true, List.mem_range, not_exists, not_and, Bool.not_eq_true]
  intro j hj k hk
  show maskUnion mask_gt mask_pred i j k = false
  unfold maskUnion
  rw [hgt i (List.mem_range.1 hi) j hj k hk, hpred i (List.mem_range.1 hi) j hj k hk]
  rfl

theorem surface_distances_allFalse {n : Shape} {mask_gt mask_pred : Mask} {sp : ℚ × ℚ × ℚ}
    (hgt : allFalse n mask_gt) (hpred : allFalse n mask_pred) :
    compute_surface_distances n mask_gt mask_pred sp = ⟨[], [], [], []⟩ := by
  have h0 : (idxNonzero0 n (maskUnion mask_gt mask_pred)).isEmpty := by
    rw [idxNonzero0_allFalse hgt hpred]
    rfl
  unfold compute_surface_distances surfelPairsGt surfelPairsPred
  rw [if_pos h0, if_pos h0]
  rfl

/-- C5: on two entirely false volumes `compute_surface_distances` returns
the four empty sequences (for every spacing, of any sign), the average
surface distance of this result is the pair of NaNs (encoded `none`), and
the robust Hausdorff distance of this result is `⊤` for every percent. -/
theorem surface_distances_empty_empty (n : Shape) (mask_gt mask_pred : Mask) (sp : ℚ × ℚ × ℚ)
    (hgt : allFalse n mask_gt) (hpred : allFalse n mask_pred) :
    compute_surface_distances n mask_gt mask_pred sp = ⟨[], [], [], []⟩ ∧
    compute_average_surface_distance (compute_surface_distances n mask_gt mask_pred sp) =
      (none, none) ∧
    ∀ percent : ℝ,
      compute_robust_hausdorff (compute_surface_distances n mask_gt mask_pred sp) percent = ⊤ := by
  have h := @surface_distances_allFalse n mask_gt mask_pred sp hgt hpred
  refine ⟨h, ?_, ?_⟩
  · rw [h]
    simp [compute_average_surface_distance, avgDir]
  · intro percent
    rw [h]
    simp [compute_robust_hausdorff, hausdorffDir]

/-- Witness for C5 at a concrete shape, masks and (negative) spacing. -/
theorem surface_distances_empty_empty_witness :
    allFalse (3, 2, 2) (fun _ _ _ => false) ∧
    (compute_surface_distances (3, 2, 2) (fun _ _ _ => false) (fun _ _ _ => false)
        (1, -2, 1) = ⟨[], [], [], []⟩ ∧
      compute_average_surface_distance
          (compute_surface_distances (3, 2, 2) (fun _ _ _ => false) (fun _ _ _ => false)
            (1, -2, 1)) = (none, none) ∧
      ∀ percent : ℝ,
        compute_robust_hausdorff
            (compute_surface_distances (3, 2, 2) (fun _ _ _ => false) (fun _ _ _ => false)
              (1, -2, 1)) percent = ⊤) :=
  ⟨by decide, surface_distances_empty_empty _ _ _ _ (by decide) (by decide)⟩

/-- Counterexample to C4 as stated: with the non-positive spacing
(-1, 0, -5), `compute_surface_distances` does not fail — it returns the
ordinary empty result (the source performs no input validation; its only
operations involving the spacing on this path are multiplications in the
area table, which cannot raise). -/
theorem surface_distances_accepts_nonpositive_spacing :
    compute_surface_distances (1, 1, 1) (fun _ _ _ => false) (fun _ _ _ => false)
      (-1, 0, -5) = ⟨[], [], [], []⟩ :=
  surface_distances_allFalse (by decide) (by decide)

/-- C4, amended: `compute_surface_distances` performs no validation of the
spacing: for every spacing triple, including non-positive ones, it returns
normally (here: the empty result on all-false inputs, a path on which the
spacing is provably irrelevant). -/
theorem surface_distances_no_spacing_validation (n : Shape) (mask_gt mask_pred : Mask)
    (sp : ℚ × ℚ × ℚ) (hgt : allFalse n mask_gt) (hpred : allFalse n mask_pred) :
    compute_surface_distances n mask_gt mask_pred sp = ⟨[], [], [], []⟩ :=
  surface_distances_allFalse hgt hpred

/-- Witness for the amended C4 with a spacing containing a zero component. -/
theorem surface_distances_no_spacing_validation_witness :
    allFalse (2, 2, 2) (fun _ _ _ => false) ∧
    compute_surface_distances (2, 2, 2) (fun _ _ _ => false) (fun _ _ _ => false)
      (0, -3, 1) = ⟨[], [], [], []⟩ :=
  ⟨by decide, surface_distances_no_spacing_validation _ _ _ _ (by decide) (by decide)⟩

end SurfaceDist

namespace SurfaceDist

/-- C9: for every code in [0,255] and positive spacing triple, the
precomputed surface area of that code equals the sum, over the code's fixed
normal list, of the Euclidean norm of the physical normal
`(nx*sy*sz, ny*sx*sz, nz*sx*sy)`. -/
theorem surface_area_table_eq_norm_sums (sp : ℚ × ℚ × ℚ) (code : ℕ)
    (hsp : spacingPos sp) (hcode : code < 256) :
    neighbour_code_to_surface_area sp code =
      ((neighbour_code_to_normals.getD code []).map (fun v =>
        ‖(show EuclideanSpace ℝ (Fin 3) from
            ![(v.1 : ℝ) * (sp.2.1 : ℝ) * (sp.2.2 : ℝ),
              (v.2.1 : ℝ) * (sp.1 : ℝ) * (sp.2.2 : ℝ),
              (v.2.2 : ℝ) * (sp.1 : ℝ) * (sp.2.1 : ℝ)])‖)).sum := by
  unfold neighbour_code_to_surface_area
  congr 1
  apply List.map_congr_left
  intro v _
  rw [EuclideanSpace.norm_eq, Fin.sum_univ_three]
  show Real.sqrt ((physNormSq sp v : ℚ) : ℝ) = _
  simp only [Matrix.cons_val_zero, Matrix.cons_val_one, Matrix.head_cons]
  rw [show ((![(v.1 : ℝ) * (sp.2.1 : ℝ) * (sp.2.2 : ℝ),
      (v.2.1 : ℝ) * (sp.1 : ℝ) * (sp.2.2 : ℝ),
      (v.2.2 : ℝ) * (sp.1 : ℝ) * (sp.2.1 : ℝ)] : Fin 3 → ℝ) 2 =
      (v.2.2 : ℝ) * (sp.1 : ℝ) * (sp.2.1 : ℝ)) from rfl]
  simp only [Real.norm_eq_abs, sq_abs]
  congr 1
  push_cast [physNormSq]
  ring

/-- Witness for C9 at spacing (2,1,1) and code 1. -/
theorem surface_area_table_eq_norm_sums_witness :
    spacingPos (2, 1, 1) ∧ (1 : ℕ) < 256 ∧
    neighbour_code_to_surface_area (2, 1, 1) 1 =
      ((neighbour_code_to_normals.getD 1 []).map (fun v =>
        ‖(show EuclideanSpace ℝ (Fin 3) from
            ![(v.1 : ℝ) * ((1 : ℚ) : ℝ) * ((1 : ℚ) : ℝ),
              (v.2.1 : ℝ) * ((2 : ℚ) : ℝ) * ((1 : ℚ) : ℝ),
              (v.2.2 : ℝ) * ((2 : ℚ) : ℝ) * ((1 : ℚ) : ℝ)])‖)).sum :=
  ⟨by decide, by norm_num, surface_area_table_eq_norm_sums (2, 1, 1) 1 (by decide) (by norm_num)⟩

end SurfaceDist

namespace SurfaceDist

theorem maskUnion_comm (a b : Mask) : maskUnion a b = maskUnion b a := by
  funext i j k
  exact Bool.or_comm _ _

theorem surfelPairs_swap (n : Shape) (a b : Mask) (sp : ℚ × ℚ × ℚ) :
    surfelPairsGt n b a sp = surfelPairsPred n a b sp ∧
    surfelPairsPred n b a sp = surfelPairsGt n a b sp := by
  unfold surfelPairsGt surfelPairsPred
  rw [maskUnion_comm b a]
  exact ⟨rfl, rfl⟩

/-- C8: swapping the two mask arguments of `compute_surface_distances` swaps
the two distance sequences and the two area sequences; the average surface
distance tuple swaps its components; the robust Hausdorff distance and the
surface Dice are unchanged. -/
theorem surface_distances_swap_symmetry (n : Shape) (mask_gt mask_pred : Mask)
    (sp : ℚ × ℚ × ℚ) :
    ((compute_surface_distances n mask_pred mask_gt sp).distances_gt_to_pred =
        (compute_surface_distances n mask_gt mask_pred sp).distances_pred_to_gt ∧
      (compute_surface_distances n mask_pred mask_gt sp).distances_pred_to_gt =
        (compute_surface_distances n mask_gt mask_pred sp).distances_gt_to_pred ∧
      (compute_surface_distances n mask_pred mask_gt sp).surfel_areas_gt =
        (compute_surface_distances n mask_gt mask_pred sp).surfel_areas_pred ∧
      (compute_surface_distances n mask_pred mask_gt sp).surfel_areas_pred =
        (compute_surface_distances n mask_gt mask_pred sp).surfel_areas_gt) ∧
    compute_average_surface_distance (compute_surface_distances n mask_pred mask_gt sp) =
      ((compute_average_surface_distance (compute_surface_distances n mask_gt mask_pred sp)).2,
        (compute_average_surface_distance (compute_surface_distances n mask_gt mask_pred sp)).1) ∧
    (∀ percent : ℝ,
      compute_robust_hausdorff (compute_surface_distances n mask_pred mask_gt sp) percent =
        compute_robust_hausdorff (compute_surface_distances n mask_gt mask_pred sp) percent) ∧
    (∀ tol : ℝ,
      compute_surface_dice_at_tolerance (compute_surface_distances n mask_pred mask_gt sp) tol =
        compute_surface_dice_at_tolerance (compute_surface_distances n mask_gt mask_pred sp) tol) := by
  obtain ⟨h1, h2⟩ := surfelPairs_swap n mask_gt mask_pred sp
  have e1 : (compute_surface_distances n mask_pred mask_gt sp).distances_gt_to_pred =
      (compute_surface_distances n mask_gt mask_pred sp).distances_pred_to_gt := by
    show (sortPairs (surfelPairsGt n mask_pred mask_gt sp)).map Prod.fst = _
    rw [h1]
    rfl
  have e2 : (compute_surface_distances n mask_pred mask_gt sp).distances_pred_to_gt =
      (compute_surface_distances n mask_gt mask_pred sp).distances_gt_to_pred := by
    show (sortPairs (surfelPairsPred n mask_pred mask_gt sp)).map Prod.fst = _
    rw [h2]
    rfl
  have e3 : (compute_surface_distances n mask_pred mask_gt sp).surfel_areas_gt =
      (compute_surface_distances n mask_gt mask_pred sp).surfel_areas_pred := by
    show (sortPairs (surfelPairsGt n mask_pred mask_gt sp)).map Prod.snd = _
    rw [h1]
    rfl
  have e4 : (compute_surface_distances n mask_pred mask_gt sp).surfel_areas_pred =
      (compute_surface_distances n mask_gt mask_pred sp).surfel_areas_gt := by
    show (sortPairs (surfelPairsPred n mask_pred mask_gt sp)).map Prod.snd = _
    rw [h2]
    rfl
  refine ⟨⟨e1, e2, e3, e4⟩, ?_, ?_, ?_⟩
  · simp only [compute_average_surface_distance, e1, e2, e3, e4]
  · intro percent
    simp only [compute_robust_hausdorff, e1, e2, e3, e4]
    exact max_comm _ _
  · intro tol
    simp only [compute_surface_dice_at_tolerance, e1, e2, e3, e4]
    rw [add_comm ((compute_surface_distances n mask_gt mask_pred sp).surfel_areas_pred.sum)
        ((compute_surface_distances n mask_gt mask_pred sp).surfel_areas_gt.sum),
      add_comm (overlapSum (compute_surface_distances n mask_gt mask_pred sp).distances_pred_to_gt
          (compute_surface_distances n mask_gt mask_pred sp).surfel_areas_pred tol)
        (overlapSum (compute_surface_distances n mask_gt mask_pred sp).distances_gt_to_pred
          (compute_surface_distances n mask_gt mask_pred sp).surfel_areas_gt tol)]

end SurfaceDist

namespace SurfaceDist

/-! Helper lemmas about bits, codes, minima of distance lists, and sums. -/

theorem bitAt_le_one (n : Shape) (m : Mask) (p : ℤ × ℤ × ℤ) : bitAt n m p ≤ 1 := by
  unfold bitAt
  cases maskGet n m p <;> simp

theorem neighbourCode_le_255 (n : Shape) (m : Mask) (p : ℤ × ℤ × ℤ) :
    neighbourCode n m p ≤ 255 := by
  unfold neighbourCode
  have h1 := bitAt_le_one n m (p.1 - 1, p.2.1 - 1, p.2.2 - 1)
  have h2 := bitAt_le_one n m (p.1 - 1, p.2.1 - 1, p.2.2)
  have h3 := bitAt_le_one n m (p.1 - 1, p.2.1, p.2.2 - 1)
  have h4 := bitAt_le_one n m (p.1 - 1, p.2.1, p.2.2)
  have h5 := bitAt_le_one n m (p.1, p.2.1 - 1, p.2.2 - 1)
  have h6 := bitAt_le_one n m (p.1, p.2.1 - 1, p.2.2)
  have h7 := bitAt_le_one n m (p.1, p.2.1, p.2.2 - 1)
  have h8 := bitAt_le_one n m (p.1, p.2.1, p.2.2)
  omega

theorem neighbourCode_ne_zero_of_center (n : Shape) (m : Mask) (p : ℤ × ℤ × ℤ)
    (h : maskGet n m p = true) : neighbourCode n m p ≠ 0 := by
  unfold neighbourCode
  have : bitAt n m (p.1, p.2.1, p.2.2) = 1 := by
    unfold bitAt
    rw [show (p.1, p.2.1, p.2.2) = p from rfl, h]
    rfl
  omega

theorem neighbourCode_ne_255_of_west (n : Shape) (m : Mask) (p : ℤ × ℤ × ℤ)
    (h : maskGet n m (p.1 - 1, p.2.1, p.2.2) = false) : neighbourCode n m p ≠ 255 := by
  unfold neighbourCode
  have h4 : bitAt n m (p.1 - 1, p.2.1, p.2.2) = 0 := by
    unfold bitAt
    rw [h]
    rfl
  have h1 := bitAt_le_one n m (p.1 - 1, p.2.1 - 1, p.2.2 - 1)
  have h2 := bitAt_le_one n m (p.1 - 1, p.2.1 - 1, p.2.2)
  have h3 := bitAt_le_one n m (p.1 - 1, p.2.1, p.2.2 - 1)
  have h5 := bitAt_le_one n m (p.1, p.2.1 - 1, p.2.2 - 1)
  have h6 := bitAt_le_one n m (p.1, p.2.1 - 1, p.2.2)
  have h7 := bitAt_le_one n m (p.1, p.2.1, p.2.2 - 1)
  have h8 := bitAt_le_one n m (p.1, p.2.1, p.2.2)
  omega

theorem neighbourCode_eq_zero_of_all_false (n : Shape) (m : Mask) (p : ℤ × ℤ × ℤ)
    (h : ∀ q : ℤ × ℤ × ℤ, maskGet n m q = false) : neighbourCode n m p = 0 := by
  unfold neighbourCode bitAt
  rw [h, h, h, h, h, h, h, h]
  rfl

theorem foldr_min_le_of_mem {x : WithTop ℝ} :
    ∀ {l : List (WithTop ℝ)}, x ∈ l → l.foldr min ⊤ ≤ x := by
  intro l hl
  induction l with
  | nil => cases hl
  | cons a t ih =>
    rcases List.mem_cons.1 hl with rfl | hx
    · exact min_le_left _ _
    · exact le_trans (min_le_right _ _) (ih hx)

theorem le_foldr_min {c : WithTop ℝ} :
    ∀ {l : List (WithTop ℝ)}, (∀ x ∈ l, c ≤ x) → c ≤ l.foldr min ⊤ := by
  intro l hl
  induction l with
  | nil => exact le_top
  | cons a t ih =>
    exact le_min (hl a (List.mem_cons_self _ _)) (ih (fun x hx => hl x (List.mem_cons_of_mem _ hx)))

theorem distSq_self (sp : ℚ × ℚ × ℚ) (p : ℤ × ℤ × ℤ) : distSq sp p p = 0 := by
  unfold distSq
  simp

theorem distSq_nonneg (sp : ℚ × ℚ × ℚ) (p q : ℤ × ℤ × ℤ) : 0 ≤ distSq sp p q := by
  unfold distSq
  positivity

theorem distToSurface_self_mem (sp : ℚ × ℚ × ℚ) {p : ℤ × ℤ × ℤ} {qs : List (ℤ × ℤ × ℤ)}
    (hp : p ∈ qs) : distToSurface sp p qs = 0 := by
  unfold distToSurface
  refine le_antisymm ?_ ?_
  · have hm : ((Real.sqrt ((distSq sp p p : ℚ) : ℝ) : ℝ) : WithTop ℝ) ∈
        qs.map (fun q => ((Real.sqrt ((distSq sp p q : ℚ) : ℝ) : ℝ) : WithTop ℝ)) :=
      List.mem_map.2 ⟨p, hp, rfl⟩
    have h0 : ((Real.sqrt ((distSq sp p p : ℚ) : ℝ) : ℝ) : WithTop ℝ) = (0 : WithTop ℝ) := by
      rw [distSq_self]
      norm_num
    exact h0 ▸ foldr_min_le_of_mem hm
  · refine le_foldr_min ?_
    intro x hx
    rcases List.mem_map.1 hx with ⟨q, _, rfl⟩
    exact_mod_cast Real.sqrt_nonneg _

theorem sum_pos_of_mem {l : List ℝ} {x : ℝ} (hx : x ∈ l) (hxp : 0 < x)
    (h : ∀ y ∈ l, 0 ≤ y) : 0 < l.sum := by
  induction l with
  | nil => cases hx
  | cons a t ih =>
    rw [List.sum_cons]
    rcases List.mem_cons.1 hx with rfl | hx2
    · have : 0 ≤ t.sum := List.sum_nonneg (fun y hy => h y (List.mem_cons_of_mem _ hy))
      linarith
    · have ha : 0 ≤ a := h a (List.mem_cons_self _ _)
      have := ih hx2 (fun y hy => h y (List.mem_cons_of_mem _ hy))
      linarith

end SurfaceDist

namespace SurfaceDist

/-! Helper lemmas about the bounding box. -/

theorem headD_mem {γ : Type*} {l : List γ} (h : l ≠ []) (d : γ) : l.headD d ∈ l := by
  cases l with
  | nil => exact absurd rfl h
  | cons a t => exact List.mem_cons_self _ _

theorem getLastD_cons_mem {γ : Type*} (b : γ) (t : List γ) (a : γ) :
    (b :: t).getLastD a ∈ b :: t := by
  induction t generalizing b a with
  | nil => simp [List.getLastD]
  | cons c t2 ih =>
    rw [List.getLastD_cons]
    exact List.mem_cons_of_mem _ (ih c b)

theorem getLastD_mem {γ : Type*} {l : List γ} (h : l ≠ []) (d : γ) : l.getLastD d ∈ l := by
  cases l with
  | nil => exact absurd rfl h
  | cons a t => exact getLastD_cons_mem a t d

theorem headD_le_of_mem_sorted {l : List ℕ} (hs : l.Sorted (· ≤ ·)) {x : ℕ} (hx : x ∈ l)
    (d : ℕ) : l.headD d ≤ x := by
  cases l with
  | nil => cases hx
  | cons a t =>
    rcases List.mem_cons.1 hx with rfl | hx2
    · exact le_refl _
    · exact (List.sorted_cons.1 hs).1 x hx2

theorem le_getLastD_of_mem_sorted {l : List ℕ} (hs : l.Sorted (· ≤ ·)) {x : ℕ} (hx : x ∈ l)
    (d : ℕ) : x ≤ l.getLastD d := by
  induction l generalizing d with
  | nil => cases hx
  | cons a t ih =>
    rw [List.getLastD_cons]
    rcases List.mem_cons.1 hx with rfl | hx2
    · cases t with
      | nil => simp [List.getLastD]
      | cons c t2 =>
        exact (List.sorted_cons.1 hs).1 _ (getLastD_cons_mem c t2 x)
    · exact ih (List.sorted_cons.1 hs).2 hx2 a

theorem filter_range_sorted (N : ℕ) (p : ℕ → Bool) :
    ((List.range N).filter p).Sorted (· ≤ ·) :=
  (((List.pairwise_lt_range N).filter p).imp (fun h => le_of_lt h))

theorem mem_idxNonzero0 {n : Shape} {u : Mask} {i : ℕ} :
    i ∈ idxNonzero0 n u ↔ i < n.1 ∧ ∃ j < n.2.1, ∃ k < n.2.2, u i j k = true := by
  unfold idxNonzero0
  rw [List.mem_filter, List.mem_range]
  simp [List.any_eq_true, List.mem_range]

theorem mem_idxNonzero1 {n : Shape} {u : Mask} {j : ℕ} :
    j ∈ idxNonzero1 n u ↔ j < n.2.1 ∧ ∃ i < n.1, ∃ k < n.2.2, u i j k = true := by
  unfold idxNonzero1
  rw [List.mem_filter, List.mem_range]
  simp [List.any_eq_true, List.mem_range]

theorem mem_idxNonzero2 {n : Shape} {u : Mask} {k : ℕ} :
    k ∈ idxNonzero2 n u ↔ k < n.2.2 ∧ ∃ i < n.1, ∃ j < n.2.1, u i j k = true := by
  unfold idxNonzero2
  rw [List.mem_filter, List.mem_range]
  simp [List.any_eq_true, List.mem_range]

theorem idxNonzero_sorted (n : Shape) (u : Mask) :
    (idxNonzero0 n u).Sorted (· ≤ ·) ∧ (idxNonzero1 n u).Sorted (· ≤ ·) ∧
      (idxNonzero2 n u).Sorted (· ≤ ·) :=
  ⟨filter_range_sorted _ _, filter_range_sorted _ _, filter_range_sorted _ _⟩

/-- Every true voxel of `u` lies inside the bounding box. -/
theorem bbox_bounds {n : Shape} {u : Mask} {i j k : ℕ} (hu : u i j k = true)
    (hi : i < n.1) (hj : j < n.2.1) (hk : k < n.2.2) :
    ((bboxMin n u).1 ≤ i ∧ i ≤ (bboxMax n u).1) ∧
    ((bboxMin n u).2.1 ≤ j ∧ j ≤ (bboxMax n u).2.1) ∧
    ((bboxMin n u).2.2 ≤ k ∧ k ≤ (bboxMax n u).2.2) := by
  have h0 : i ∈ idxNonzero0 n u := mem_idxNonzero0.2 ⟨hi, j, hj, k, hk, hu⟩
  have h1 : j ∈ idxNonzero1 n u := mem_idxNonzero1.2 ⟨hj, i, hi, k, hk, hu⟩
  have h2 : k ∈ idxNonzero2 n u := mem_idxNonzero2.2 ⟨hk, i, hi, j, hj, hu⟩
  obtain ⟨s0, s1, s2⟩ := idxNonzero_sorted n u
  exact ⟨⟨headD_le_of_mem_sorted s0 h0 0, le_getLastD_of_mem_sorted s0 h0 0⟩,
    ⟨headD_le_of_mem_sorted s1 h1 0, le_getLastD_of_mem_sorted s1 h1 0⟩,
    ⟨headD_le_of_mem_sorted s2 h2 0, le_getLastD_of_mem_sorted s2 h2 0⟩⟩

/-- With a nonempty union all three index lists are nonempty. -/
theorem idxNonzero_ne_nil {n : Shape} {u : Mask} (h : maskNonempty n u) :
    idxNonzero0 n u ≠ [] ∧ idxNonzero1 n u ≠ [] ∧ idxNonzero2 n u ≠ [] := by
  obtain ⟨i, hi, j, hj, k, hk, hu⟩ := h
  exact ⟨List.ne_nil_of_mem (mem_idxNonzero0.2 ⟨hi, j, hj, k, hk, hu⟩),
    List.ne_nil_of_mem (mem_idxNonzero1.2 ⟨hj, i, hi, k, hk, hu⟩),
    List.ne_nil_of_mem (mem_idxNonzero2.2 ⟨hk, i, hi, j, hj, hu⟩)⟩

/-- With a nonempty union the bounding box lies inside the volume, and its
minimum is attained: there is a true voxel with first coordinate
`(bboxMin n u).1`. -/
theorem bbox_attained {n : Shape} {u : Mask} (h : maskNonempty n u) :
    ((bboxMax n u).1 < n.1 ∧ (bboxMax n u).2.1 < n.2.1 ∧ (bboxMax n u).2.2 < n.2.2) ∧
    ∃ j < n.2.1, ∃ k < n.2.2, u (bboxMin n u).1 j k = true := by
  obtain ⟨h0, h1, h2⟩ := idxNonzero_ne_nil h
  constructor
  · exact ⟨(mem_idxNonzero0.1 (getLastD_mem h0 0)).1,
      (mem_idxNonzero1.1 (getLastD_mem h1 0)).1,
      (mem_idxNonzero2.1 (getLastD_mem h2 0)).1⟩
  · exact (mem_idxNonzero0.1 (headD_mem h0 0)).2

end SurfaceDist

namespace SurfaceDist

/-! Positivity of the surface areas of border codes. -/

set_option maxRecDepth 8000 in
theorem table_nonzero_normal :
    ∀ c, c < 256 → c ≠ 0 → c ≠ 255 →
      ((neighbourCodeNormalsEighths.getD c []).any
        (fun v => decide (¬(v = ((0 : ℤ), (0 : ℤ), (0 : ℤ)))))) = true := by decide

set_option maxRecDepth 8000 in
theorem neighbourCodeNormalsEighths_length : neighbourCodeNormalsEighths.length = 256 := by
  decide

theorem getD_normals_eq (c : ℕ) (hc : c < 256) :
    neighbour_code_to_normals.getD c [] =
      (neighbourCodeNormalsEighths.getD c []).map (fun v =>
        ((v.1 : ℚ) / 8, (v.2.1 : ℚ) / 8, (v.2.2 : ℚ) / 8)) := by
  unfold neighbour_code_to_normals
  have hlen : c < neighbourCodeNormalsEighths.length := by
    rw [neighbourCodeNormalsEighths_length]
    exact hc
  rw [List.getD_eq_getElem _ _ (by simpa using hlen), List.getD_eq_getElem _ _ hlen,
    List.getElem_map]

theorem physNormSq_pos {sp : ℚ × ℚ × ℚ} (hsp : spacingPos sp) {w : ℤ × ℤ × ℤ}
    (hw : ¬w = ((0 : ℤ), (0 : ℤ), (0 : ℤ))) :
    0 < physNormSq sp ((w.1 : ℚ) / 8, (w.2.1 : ℚ) / 8, (w.2.2 : ℚ) / 8) := by
  obtain ⟨h1, h2, h3⟩ := hsp
  have hcomp : w.1 ≠ 0 ∨ w.2.1 ≠ 0 ∨ w.2.2 ≠ 0 := by
    by_contra hcon
    push_neg at hcon
    refine hw ?_
    obtain ⟨a, b, c⟩ := w
    simp only at hcon
    simp [hcon.1, hcon.2.1, hcon.2.2]
  unfold physNormSq
  simp only
  have e1 : (0 : ℚ) ≤ ((w.1 : ℚ) / 8 * sp.2.1 * sp.2.2) ^ 2 := sq_nonneg _
  have e2 : (0 : ℚ) ≤ ((w.2.1 : ℚ) / 8 * sp.1 * sp.2.2) ^ 2 := sq_nonneg _
  have e3 : (0 : ℚ) ≤ ((w.2.2 : ℚ) / 8 * sp.1 * sp.2.1) ^ 2 := sq_nonneg _
  rcases hcomp with hne | hne | hne
  · have : ((w.1 : ℚ) / 8 * sp.2.1 * sp.2.2) ≠ 0 :=
      mul_ne_zero (mul_ne_zero (div_ne_zero (Int.cast_ne_zero.2 hne) (by norm_num)) h2.ne')
        h3.ne'
    have := pow_two_pos_of_ne_zero this
    linarith
  · have : ((w.2.1 : ℚ) / 8 * sp.1 * sp.2.2) ≠ 0 :=
      mul_ne_zero (mul_ne_zero (div_ne_zero (Int.cast_ne_zero.2 hne) (by norm_num)) h1.ne')
        h3.ne'
    have := pow_two_pos_of_ne_zero this
    linarith
  · have : ((w.2.2 : ℚ) / 8 * sp.1 * sp.2.1) ≠ 0 :=
      mul_ne_zero (mul_ne_zero (div_ne_zero (Int.cast_ne_zero.2 hne) (by norm_num)) h1.ne')
        h2.ne'
    have := pow_two_pos_of_ne_zero this
    linarith

theorem surface_area_nonneg (sp : ℚ × ℚ × ℚ) (c : ℕ) :
    0 ≤ neighbour_code_to_surface_area sp c := by
  unfold neighbour_code_to_surface_area
  refine List.sum_nonneg ?_
  intro y hy
  rcases List.mem_map.1 hy with ⟨v, _, rfl⟩
  exact Real.sqrt_nonneg _

theorem surface_area_pos {sp : ℚ × ℚ × ℚ} (hsp : spacingPos sp) {c : ℕ}
    (hlt : c < 256) (h0 : c ≠ 0) (h255 : c ≠ 255) :
    0 < neighbour_code_to_surface_area sp c := by
  unfold neighbour_code_to_surface_area
  rw [getD_normals_eq c hlt]
  have hany := table_nonzero_normal c hlt h0 h255
  rw [List.any_eq_true] at hany
  obtain ⟨w, hwmem, hwne⟩ := hany
  rw [decide_eq_true_eq] at hwne
  rw [List.map_map]
  refine sum_pos_of_mem (List.mem_map.2 ⟨w, hwmem, rfl⟩) ?_ ?_
  · show 0 < Real.sqrt _
    refine Real.sqrt_pos.2 ?_
    exact_mod_cast physNormSq_pos hsp hwne
  · intro y hy
    rcases List.mem_map.1 hy with ⟨v, _, rfl⟩
    exact Real.sqrt_nonneg _

end SurfaceDist

namespace SurfaceDist

end SurfaceDist

namespace SurfaceDist

theorem mem_corners {g : Shape} {p : ℤ × ℤ × ℤ} :
    p ∈ corners g ↔ (0 ≤ p.1 ∧ p.1 < (g.1 : ℤ)) ∧ (0 ≤ p.2.1 ∧ p.2.1 < (g.2.1 : ℤ)) ∧
      (0 ≤ p.2.2 ∧ p.2.2 < (g.2.2 : ℤ)) := by
  unfold corners
  constructor
  · intro hp
    rcases List.mem_flatMap.1 hp with ⟨i, hi, hp2⟩
    rcases List.mem_flatMap.1 hp2 with ⟨j, hj, hp3⟩
    rcases List.mem_map.1 hp3 with ⟨k, hk, rfl⟩
    rw [List.mem_range] at hi hj hk
    dsimp only
    omega
  · rintro ⟨⟨h1, h2⟩, ⟨h3, h4⟩, h5, h6⟩
    refine List.mem_flatMap.2 ⟨p.1.toNat, List.mem_range.2 (by omega),
      List.mem_flatMap.2 ⟨p.2.1.toNat, List.mem_range.2 (by omega),
        List.mem_map.2 ⟨p.2.2.toNat, List.mem_range.2 (by omega), ?_⟩⟩⟩
    obtain ⟨a, b, c⟩ := p
    dsimp only at h1 h3 h5 ⊢
    rw [Int.toNat_of_nonneg h1, Int.toNat_of_nonneg h3, Int.toNat_of_nonneg h5]

theorem maskGet_eq_true_iff {n : Shape} {m : Mask} {p : ℤ × ℤ × ℤ} :
    maskGet n m p = true ↔
      (0 ≤ p.1 ∧ p.1 < (n.1 : ℤ) ∧ 0 ≤ p.2.1 ∧ p.2.1 < (n.2.1 : ℤ) ∧
        0 ≤ p.2.2 ∧ p.2.2 < (n.2.2 : ℤ)) ∧
      m p.1.toNat p.2.1.toNat p.2.2.toNat = true := by
  unfold maskGet
  split
  case isTrue h => simp [h]
  case isFalse h => simp [h]

theorem maskGet_out_eq_false {n : Shape} {m : Mask} {p : ℤ × ℤ × ℤ}
    (h : ¬(0 ≤ p.1 ∧ p.1 < (n.1 : ℤ) ∧ 0 ≤ p.2.1 ∧ p.2.1 < (n.2.1 : ℤ) ∧
      0 ≤ p.2.2 ∧ p.2.2 < (n.2.2 : ℤ))) : maskGet n m p = false := by
  unfold maskGet
  exact if_neg h

theorem cropPad_eq_true_iff {m : Mask} {bmin bmax : Shape} {i j k : ℕ} :
    cropPad m bmin bmax i j k = true ↔
      (i < bmax.1 - bmin.1 + 1 ∧ j < bmax.2.1 - bmin.2.1 + 1 ∧ k < bmax.2.2 - bmin.2.2 + 1) ∧
      m (bmin.1 + i) (bmin.2.1 + j) (bmin.2.2 + k) = true := by
  unfold cropPad
  split
  case isTrue h => simp [h]
  case isFalse h => simp [h]

/-- The padded crop of a nonempty mask always contains a border corner: the
corner sitting on a true voxel attaining the bounding-box minimum along the
first axis. -/
theorem crop_border_ne_nil {n : Shape} {mSelf u : Mask}
    (hne : maskNonempty n u)
    (hsub : ∀ i j k, i < n.1 → j < n.2.1 → k < n.2.2 → mSelf i j k = true → u i j k = true)
    (hex : ∃ j < n.2.1, ∃ k < n.2.2, mSelf (bboxMin n u).1 j k = true) :
    borderList (cropShape (bboxMin n u) (bboxMax n u))
      (cropPad mSelf (bboxMin n u) (bboxMax n u))
      (cropShape (bboxMin n u) (bboxMax n u)) ≠ [] := by
  obtain ⟨j, hj, k, hk, hm⟩ := hex
  have hbmin0 : (bboxMin n u).1 < n.1 :=
    (mem_idxNonzero0.1 (headD_mem (idxNonzero_ne_nil hne).1 0)).1
  have hu : u (bboxMin n u).1 j k = true := hsub _ _ _ hbmin0 hj hk hm
  obtain ⟨⟨hb1, hb2⟩, ⟨hb3, hb4⟩, hb5, hb6⟩ := bbox_bounds hu hbmin0 hj hk
  have hg1 : (cropShape (bboxMin n u) (bboxMax n u)).1 = (bboxMax n u).1 - (bboxMin n u).1 + 2 := rfl
  have hg2 : (cropShape (bboxMin n u) (bboxMax n u)).2.1 =
    (bboxMax n u).2.1 - (bboxMin n u).2.1 + 2 := rfl
  have hg3 : (cropShape (bboxMin n u) (bboxMax n u)).2.2 =
    (bboxMax n u).2.2 - (bboxMin n u).2.2 + 2 := rfl
  have hcmem : ((0 : ℤ), ((j - (bboxMin n u).2.1 : ℕ) : ℤ), ((k - (bboxMin n u).2.2 : ℕ) : ℤ)) ∈
      corners (cropShape (bboxMin n u) (bboxMax n u)) := by
    rw [mem_corners, hg1, hg2, hg3]
    dsimp only
    exact ⟨⟨by omega, by omega⟩, ⟨by omega, by omega⟩, by omega, by omega⟩
  have hcenter : maskGet (cropShape (bboxMin n u) (bboxMax n u))
      (cropPad mSelf (bboxMin n u) (bboxMax n u))
      ((0 : ℤ), ((j - (bboxMin n u).2.1 : ℕ) : ℤ), ((k - (bboxMin n u).2.2 : ℕ) : ℤ)) = true := by
    rw [maskGet_eq_true_iff, hg1, hg2, hg3]
    dsimp only
    refine ⟨⟨by omega, by omega, by omega, by omega, by omega, by omega⟩, ?_⟩
    rw [show ((0 : ℤ)).toNat = 0 from rfl, Int.toNat_natCast, Int.toNat_natCast]
    rw [cropPad_eq_true_iff]
    refine ⟨⟨by omega, by omega, by omega⟩, ?_⟩
    rw [show (bboxMin n u).1 + 0 = (bboxMin n u).1 by omega,
      show (bboxMin n u).2.1 + (j - (bboxMin n u).2.1) = j by omega,
      show (bboxMin n u).2.2 + (k - (bboxMin n u).2.2) = k by omega]
    exact hm
  have hwest : maskGet (cropShape (bboxMin n u) (bboxMax n u))
      (cropPad mSelf (bboxMin n u) (bboxMax n u))
      (((0 : ℤ), ((j - (bboxMin n u).2.1 : ℕ) : ℤ), ((k - (bboxMin n u).2.2 : ℕ) : ℤ)).1 - 1,
       ((0 : ℤ), ((j - (bboxMin n u).2.1 : ℕ) : ℤ), ((k - (bboxMin n u).2.2 : ℕ) : ℤ)).2.1,
       ((0 : ℤ), ((j - (bboxMin n u).2.1 : ℕ) : ℤ), ((k - (bboxMin n u).2.2 : ℕ) : ℤ)).2.2) =
      false := by
    refine maskGet_out_eq_false ?_
    dsimp only
    omega
  have hborder : isBorder (cropShape (bboxMin n u) (bboxMax n u))
      (cropPad mSelf (bboxMin n u) (bboxMax n u))
      ((0 : ℤ), ((j - (bboxMin n u).2.1 : ℕ) : ℤ), ((k - (bboxMin n u).2.2 : ℕ) : ℤ)) = true := by
    unfold isBorder
    rw [decide_eq_true_eq]
    exact ⟨neighbourCode_ne_zero_of_center _ _ _ hcenter,
      neighbourCode_ne_255_of_west _ _ _ hwest⟩
  exact List.ne_nil_of_mem (List.mem_filter.2 ⟨hcmem, hborder⟩)

end SurfaceDist
namespace SurfaceDist

theorem maskUnion_self (m : Mask) : maskUnion m m = m := by
  funext i j k
  exact Bool.or_self _

theorem maskUnion_true_iff (a b : Mask) (i j k : ℕ) :
    maskUnion a b i j k = true ↔ a i j k = true ∨ b i j k = true := by
  unfold maskUnion
  exact Bool.or_eq_true_iff

theorem overlapSum_all {α : Type} [LinearOrderedField α] (tol : α) :
    ∀ (ds : List (WithTop α)) (as : List α), ds.length = as.length →
      (∀ d ∈ ds, d ≤ (tol : WithTop α)) → overlapSum ds as tol = as.sum := by
  intro ds
  induction ds with
  | nil =>
    intro as h _
    cases as with
    | nil => rfl
    | cons a t => simp at h
  | cons d ds ih =>
    intro as h hall
    cases as with
    | nil => simp at h
    | cons a t =>
      unfold overlapSum
      rw [List.zipWith_cons_cons, List.sum_cons, if_pos (hall d (List.mem_cons_self _ _))]
      have := ih t (by simpa using h) (fun x hx => hall x (List.mem_cons_of_mem _ hx))
      unfold overlapSum at this
      rw [this, List.sum_cons]

theorem hausdorffDir_all_zero {ds : List (WithTop ℝ)} (as : List ℝ) (hne : ds ≠ [])
    (hzero : ∀ d ∈ ds, d = 0) (percent : ℝ) : hausdorffDir ds as percent = 0 := by
  unfold hausdorffDir
  have hpos : 0 < ds.length := List.length_pos.2 hne
  rw [if_pos hpos]
  have hidx : min (searchsorted (cumFractions as) (percent / 100)) (ds.length - 1) <
      ds.length := by omega
  rw [List.getD_eq_getElem _ _ hidx]
  exact hzero _ (List.getElem_mem hidx)

/-- C6: running the pipeline with two identical nonempty masks and positive
spacing gives a surface-distance set whose distances are all 0 in both
directions; consequently the robust Hausdorff distance is 0 at every
percent, the surface overlap is (1, 1) at every nonnegative tolerance, and
the surface Dice is 1 at every nonnegative tolerance. -/
theorem surface_distances_identical_masks (n : Shape) (m : Mask) (sp : ℚ × ℚ × ℚ)
    (hm : maskNonempty n m) (hsp : spacingPos sp) :
    (∀ d ∈ (compute_surface_distances n m m sp).distances_gt_to_pred, d = 0) ∧
    (∀ d ∈ (compute_surface_distances n m m sp).distances_pred_to_gt, d = 0) ∧
    (∀ percent : ℝ,
      compute_robust_hausdorff (compute_surface_distances n m m sp) percent = 0) ∧
    (∀ tol : ℝ, 0 ≤ tol →
      compute_surface_overlap_at_tolerance (compute_surface_distances n m m sp) tol =
        (some 1, some 1)) ∧
    (∀ tol : ℝ, 0 ≤ tol →
      compute_surface_dice_at_tolerance (compute_surface_distances n m m sp) tol = some 1) := by
  have hu : maskUnion m m = m := maskUnion_self m
  have hne : maskNonempty n (maskUnion m m) := by rwa [hu]
  have hnn : ¬(idxNonzero0 n (maskUnion m m)).isEmpty = true := by
    simpa [List.isEmpty_iff] using (idxNonzero_ne_nil hne).1
  have hsub : ∀ i j k, i < n.1 → j < n.2.1 → k < n.2.2 → m i j k = true →
      maskUnion m m i j k = true := by
    intro i j k _ _ _ h
    rw [hu]
    exact h
  have hex : ∃ j < n.2.1, ∃ k < n.2.2, m (bboxMin n (maskUnion m m)).1 j k = true := by
    obtain ⟨j, hj, k, hk, hval⟩ := (bbox_attained hne).2
    rw [maskUnion_true_iff, or_self] at hval
    exact ⟨j, hj, k, hk, hval⟩
  have hBL := crop_border_ne_nil hne hsub hex
  -- the two unsorted pair lists coincide
  have e1 : surfelPairsGt n m m sp =
      croppedPairs m m (bboxMin n (maskUnion m m)) (bboxMax n (maskUnion m m)) sp := by
    unfold surfelPairsGt
    rw [if_neg hnn]
  have e2 : surfelPairsPred n m m sp =
      croppedPairs m m (bboxMin n (maskUnion m m)) (bboxMax n (maskUnion m m)) sp := by
    unfold surfelPairsPred
    rw [if_neg hnn]
  -- facts about the collected pairs
  have hpairs : ∀ pr ∈ croppedPairs m m (bboxMin n (maskUnion m m))
      (bboxMax n (maskUnion m m)) sp, pr.1 = 0 ∧ 0 < pr.2 := by
    intro pr hpr
    unfold croppedPairs collectPairs at hpr
    rcases List.mem_map.1 hpr with ⟨p, hp, rfl⟩
    have hb := (List.mem_filter.1 hp).2
    unfold isBorder at hb
    rw [decide_eq_true_eq] at hb
    refine ⟨distToSurface_self_mem sp hp, ?_⟩
    exact surface_area_pos hsp
      (lt_of_le_of_lt (neighbourCode_le_255 _ _ _) (by norm_num)) hb.1 hb.2
  have hLPne : croppedPairs m m (bboxMin n (maskUnion m m))
      (bboxMax n (maskUnion m m)) sp ≠ [] := by
    unfold croppedPairs collectPairs
    intro hcon
    rw [List.map_eq_nil_iff] at hcon
    exact hBL hcon
  -- facts about the sorted pairs
  have hsorted : ∀ pr ∈ sortPairs (croppedPairs m m (bboxMin n (maskUnion m m))
      (bboxMax n (maskUnion m m)) sp), pr.1 = 0 ∧ 0 < pr.2 := by
    intro pr hpr
    exact hpairs pr ((sortPairs_perm _).mem_iff.1 hpr)
  have hSPne : sortPairs (croppedPairs m m (bboxMin n (maskUnion m m))
      (bboxMax n (maskUnion m m)) sp) ≠ [] := by
    intro hcon
    have := (sortPairs_perm (croppedPairs m m (bboxMin n (maskUnion m m))
      (bboxMax n (maskUnion m m)) sp)).length_eq
    rw [hcon] at this
    simp only [List.length_nil] at this
    exact hLPne (List.length_eq_zero.1 this.symm)
  -- name the four columns
  have hdgt : (compute_surface_distances n m m sp).distances_gt_to_pred =
      (sortPairs (croppedPairs m m (bboxMin n (maskUnion m m))
        (bboxMax n (maskUnion m m)) sp)).map Prod.fst := by
    show (sortPairs (surfelPairsGt n m m sp)).map Prod.fst = _
    rw [e1]
  have hdpred : (compute_surface_distances n m m sp).distances_pred_to_gt =
      (sortPairs (croppedPairs m m (bboxMin n (maskUnion m m))
        (bboxMax n (maskUnion m m)) sp)).map Prod.fst := by
    show (sortPairs (surfelPairsPred n m m sp)).map Prod.fst = _
    rw [e2]
  have hagt : (compute_surface_distances n m m sp).surfel_areas_gt =
      (sortPairs (croppedPairs m m (bboxMin n (maskUnion m m))
        (bboxMax n (maskUnion m m)) sp)).map Prod.snd := by
    show (sortPairs (surfelPairsGt n m m sp)).map Prod.snd = _
    rw [e1]
  have hapred : (compute_surface_distances n m m sp).surfel_areas_pred =
      (sortPairs (croppedPairs m m (bboxMin n (maskUnion m m))
        (bboxMax n (maskUnion m m)) sp)).map Prod.snd := by
    show (sortPairs (surfelPairsPred n m m sp)).map Prod.snd = _
    rw [e2]
  have hdzero : ∀ d ∈ (sortPairs (croppedPairs m m (bboxMin n (maskUnion m m))
      (bboxMax n (maskUnion m m)) sp)).map Prod.fst, d = (0 : WithTop ℝ) := by
    intro d hd
    rcases List.mem_map.1 hd with ⟨pr, hpr, rfl⟩
    exact (hsorted pr hpr).1
  have hdne : ((sortPairs (croppedPairs m m (bboxMin n (maskUnion m m))
      (bboxMax n (maskUnion m m)) sp)).map Prod.fst) ≠ [] := by
    intro hcon
    rw [List.map_eq_nil_iff] at hcon
    exact hSPne hcon
  have hasum : 0 < ((sortPairs (croppedPairs m m (bboxMin n (maskUnion m m))
      (bboxMax n (maskUnion m m)) sp)).map Prod.snd).sum := by
    refine List.sum_pos _ ?_ ?_
    · intro x hx
      rcases List.mem_map.1 hx with ⟨pr, hpr, rfl⟩
      exact (hsorted pr hpr).2
    · intro hcon
      rw [List.map_eq_nil_iff] at hcon
      exact hSPne hcon
  have hlen : ((sortPairs (croppedPairs m m (bboxMin n (maskUnion m m))
      (bboxMax n (maskUnion m m)) sp)).map Prod.fst).length =
      ((sortPairs (croppedPairs m m (bboxMin n (maskUnion m m))
        (bboxMax n (maskUnion m m)) sp)).map Prod.snd).length := by
    rw [List.length_map, List.length_map]
  refine ⟨?_, ?_, ?_, ?_, ?_⟩
  · rw [hdgt]
    exact hdzero
  · rw [hdpred]
    exact hdzero
  · intro percent
    unfold compute_robust_hausdorff
    rw [hdgt, hdpred, hagt, hapred, hausdorffDir_all_zero _ hdne hdzero, max_self]
  · intro tol htol
    have hall : ∀ d ∈ (sortPairs (croppedPairs m m (bboxMin n (maskUnion m m))
        (bboxMax n (maskUnion m m)) sp)).map Prod.fst, d ≤ ((tol : ℝ) : WithTop ℝ) := by
      intro d hd
      rw [hdzero d hd, ← WithTop.coe_zero]
      exact WithTop.coe_le_coe.2 htol
    unfold compute_surface_overlap_at_tolerance overlapDir
    rw [hdgt, hdpred, hagt, hapred, if_neg hasum.ne',
      overlapSum_all tol _ _ hlen hall, div_self hasum.ne']
  · intro tol htol
    have hall : ∀ d ∈ (sortPairs (croppedPairs m m (bboxMin n (maskUnion m m))
        (bboxMax n (maskUnion m m)) sp)).map Prod.fst, d ≤ ((tol : ℝ) : WithTop ℝ) := by
      intro d hd
      rw [hdzero d hd, ← WithTop.coe_zero]
      exact WithTop.coe_le_coe.2 htol
    have hsum2 : (0 : ℝ) < ((sortPairs (croppedPairs m m (bboxMin n (maskUnion m m))
        (bboxMax n (maskUnion m m)) sp)).map Prod.snd).sum +
        ((sortPairs (croppedPairs m m (bboxMin n (maskUnion m m))
          (bboxMax n (maskUnion m m)) sp)).map Prod.snd).sum := by linarith
    unfold compute_surface_dice_at_tolerance
    rw [hdgt, hdpred, hagt, hapred, if_neg hsum2.ne',
      overlapSum_all tol _ _ hlen hall, div_self hsum2.ne']

end SurfaceDist

namespace SurfaceDist

/-- Witness for C6 at the single-voxel all-true volume with spacing (2,1,1). -/
theorem surface_distances_identical_masks_witness :
    maskNonempty (1, 1, 1) (fun _ _ _ => true) ∧ spacingPos (2, 1, 1) ∧
    ∀ percent : ℝ,
      compute_robust_hausdorff
        (compute_surface_distances (1, 1, 1) (fun _ _ _ => true) (fun _ _ _ => true) (2, 1, 1))
        percent = 0 :=
  ⟨by decide, by decide,
    (surface_distances_identical_masks (1, 1, 1) (fun _ _ _ => true) (2, 1, 1)
      (by decide) (by decide)).2.2.1⟩

end SurfaceDist
namespace SurfaceDist

theorem overlapSum_top {α : Type} [LinearOrderedField α] (tol : α) :
    ∀ (ds : List (WithTop α)) (as : List α), (∀ d ∈ ds, d = ⊤) →
      overlapSum ds as tol = 0 := by
  intro ds
  induction ds with
  | nil =>
    intro as _
    cases as <;> rfl
  | cons d ds ih =>
    intro as hall
    cases as with
    | nil => rfl
    | cons a t =>
      unfold overlapSum
      rw [List.zipWith_cons_cons, List.sum_cons, if_neg ?_]
      · have := ih t (fun x hx => hall x (List.mem_cons_of_mem _ hx))
        unfold overlapSum at this
        rw [this, add_zero]
      · rw [hall d (List.mem_cons_self _ _)]
        exact WithTop.not_top_le_coe tol

theorem bboxMin_le_bboxMax {n : Shape} {u : Mask} (hne : maskNonempty n u) :
    (bboxMin n u).1 ≤ (bboxMax n u).1 ∧ (bboxMin n u).2.1 ≤ (bboxMax n u).2.1 ∧
      (bboxMin n u).2.2 ≤ (bboxMax n u).2.2 := by
  obtain ⟨h0, h1, h2⟩ := idxNonzero_ne_nil hne
  obtain ⟨s0, s1, s2⟩ := idxNonzero_sorted n u
  exact ⟨le_getLastD_of_mem_sorted s0 (headD_mem h0 0) 0,
    le_getLastD_of_mem_sorted s1 (headD_mem h1 0) 0,
    le_getLastD_of_mem_sorted s2 (headD_mem h2 0) 0⟩

theorem cropPad_allFalse_get {n : Shape} {b u : Mask} (hb : allFalse n b)
    (h1 : (bboxMax n u).1 < n.1) (h2 : (bboxMax n u).2.1 < n.2.1)
    (h3 : (bboxMax n u).2.2 < n.2.2)
    (h4 : (bboxMin n u).1 ≤ (bboxMax n u).1) (h5 : (bboxMin n u).2.1 ≤ (bboxMax n u).2.1)
    (h6 : (bboxMin n u).2.2 ≤ (bboxMax n u).2.2) (p : ℤ × ℤ × ℤ) :
    maskGet (cropShape (bboxMin n u) (bboxMax n u)) (cropPad b (bboxMin n u) (bboxMax n u)) p
      = false := by
  by_contra hcon
  rw [Bool.not_eq_false, maskGet_eq_true_iff, cropPad_eq_true_iff] at hcon
  obtain ⟨hg, ⟨hd1, hd2, hd3⟩, hval⟩ := hcon
  rw [hb ((bboxMin n u).1 + p.1.toNat) (by omega) ((bboxMin n u).2.1 + p.2.1.toNat) (by omega)
    ((bboxMin n u).2.2 + p.2.2.toNat) (by omega)] at hval
  simp at hval

theorem borderList_cropPad_allFalse {n : Shape} {b u : Mask} (hb : allFalse n b)
    (h1 : (bboxMax n u).1 < n.1) (h2 : (bboxMax n u).2.1 < n.2.1)
    (h3 : (bboxMax n u).2.2 < n.2.2)
    (h4 : (bboxMin n u).1 ≤ (bboxMax n u).1) (h5 : (bboxMin n u).2.1 ≤ (bboxMax n u).2.1)
    (h6 : (bboxMin n u).2.2 ≤ (bboxMax n u).2.2) :
    borderList (cropShape (bboxMin n u) (bboxMax n u))
      (cropPad b (bboxMin n u) (bboxMax n u))
      (cropShape (bboxMin n u) (bboxMax n u)) = [] := by
  unfold borderList
  rw [List.filter_eq_nil_iff]
  intro p _
  unfold isBorder
  rw [neighbourCode_eq_zero_of_all_false _ _ _ (cropPad_allFalse_get hb h1 h2 h3 h4 h5 h6)]
  simp

/-- C10: when the prediction volume is entirely false while the ground-truth
volume is not (or vice versa), the empty side's distance and area sequences
are empty and every distance on the non-empty side is `⊤`; consequently the
surface Dice is exactly 0 for every (finite) tolerance and the surface
overlap is 0 on the non-empty direction and NaN (encoded `none`, the `0/0`)
on the empty direction. -/
theorem surface_distances_one_mask_empty (n : Shape) (a b : Mask) (sp : ℚ × ℚ × ℚ)
    (ha : maskNonempty n a) (hb : allFalse n b) (hsp : spacingPos sp) :
    ((compute_surface_distances n a b sp).distances_pred_to_gt = [] ∧
      (compute_surface_distances n a b sp).surfel_areas_pred = [] ∧
      (compute_surface_distances n a b sp).distances_gt_to_pred ≠ [] ∧
      (∀ d ∈ (compute_surface_distances n a b sp).distances_gt_to_pred, d = ⊤) ∧
      (∀ tol : ℝ,
        compute_surface_dice_at_tolerance (compute_surface_distances n a b sp) tol = some 0) ∧
      ∀ tol : ℝ,
        compute_surface_overlap_at_tolerance (compute_surface_distances n a b sp) tol =
          (some 0, none)) ∧
    ((compute_surface_distances n b a sp).distances_gt_to_pred = [] ∧
      (compute_surface_distances n b a sp).surfel_areas_gt = [] ∧
      (compute_surface_distances n b a sp).distances_pred_to_gt ≠ [] ∧
      (∀ d ∈ (compute_surface_distances n b a sp).distances_pred_to_gt, d = ⊤) ∧
      (∀ tol : ℝ,
        compute_surface_dice_at_tolerance (compute_surface_distances n b a sp) tol = some 0) ∧
      ∀ tol : ℝ,
        compute_surface_overlap_at_tolerance (compute_surface_distances n b a sp) tol =
          (none, some 0)) := by
  have hne : maskNonempty n (maskUnion a b) := by
    obtain ⟨i, hi, j, hj, k, hk, hval⟩ := ha
    exact ⟨i, hi, j, hj, k, hk, (maskUnion_true_iff a b i j k).2 (Or.inl hval)⟩
  have hnn : ¬(idxNonzero0 n (maskUnion a b)).isEmpty = true := by
    simpa [List.isEmpty_iff] using (idxNonzero_ne_nil hne).1
  obtain ⟨⟨hx1, hx2, hx3⟩, hexu⟩ := bbox_attained hne
  have hbmin0 : (bboxMin n (maskUnion a b)).1 < n.1 :=
    (mem_idxNonzero0.1 (headD_mem (idxNonzero_ne_nil hne).1 0)).1
  have hsub : ∀ i j k, i < n.1 → j < n.2.1 → k < n.2.2 → a i j k = true →
      maskUnion a b i j k = true := by
    intro i j k _ _ _ h
    exact (maskUnion_true_iff a b i j k).2 (Or.inl h)
  have hex : ∃ j < n.2.1, ∃ k < n.2.2, a (bboxMin n (maskUnion a b)).1 j k = true := by
    obtain ⟨j, hj, k, hk, hval⟩ := hexu
    rw [maskUnion_true_iff] at hval
    rcases hval with h | h
    · exact ⟨j, hj, k, hk, h⟩
    · rw [hb _ hbmin0 _ hj _ hk] at h
      simp at h
  have hBLa := crop_border_ne_nil hne hsub hex
  obtain ⟨hm1, hm2, hm3⟩ := bboxMin_le_bboxMax hne
  have hBLb := borderList_cropPad_allFalse (u := maskUnion a b) hb hx1 hx2 hx3 hm1 hm2 hm3
  have e1 : surfelPairsGt n a b sp =
      croppedPairs a b (bboxMin n (maskUnion a b)) (bboxMax n (maskUnion a b)) sp := by
    unfold surfelPairsGt
    rw [if_neg hnn]
  have e2 : surfelPairsPred n a b sp =
      croppedPairs b a (bboxMin n (maskUnion a b)) (bboxMax n (maskUnion a b)) sp := by
    unfold surfelPairsPred
    rw [if_neg hnn]
  -- the b-side pair list is empty
  have hLPb : croppedPairs b a (bboxMin n (maskUnion a b)) (bboxMax n (maskUnion a b)) sp
      = [] := by
    unfold croppedPairs collectPairs
    rw [hBLb]
    rfl
  -- the a-side pair list: nonempty, every distance top, every area positive
  have hpairs : ∀ pr ∈ croppedPairs a b (bboxMin n (maskUnion a b))
      (bboxMax n (maskUnion a b)) sp, pr.1 = (⊤ : WithTop ℝ) ∧ 0 < pr.2 := by
    intro pr hpr
    unfold croppedPairs collectPairs at hpr
    rw [hBLb] at hpr
    rcases List.mem_map.1 hpr with ⟨p, hp, rfl⟩
    have hbd := (List.mem_filter.1 hp).2
    unfold isBorder at hbd
    rw [decide_eq_true_eq] at hbd
    refine ⟨rfl, ?_⟩
    exact surface_area_pos hsp
      (lt_of_le_of_lt (neighbourCode_le_255 _ _ _) (by norm_num)) hbd.1 hbd.2
  have hLPa : croppedPairs a b (bboxMin n (maskUnion a b)) (bboxMax n (maskUnion a b)) sp
      ≠ [] := by
    unfold croppedPairs collectPairs
    intro hcon
    rw [List.map_eq_nil_iff] at hcon
    exact hBLa hcon
  have hsorted : ∀ pr ∈ sortPairs (croppedPairs a b (bboxMin n (maskUnion a b))
      (bboxMax n (maskUnion a b)) sp), pr.1 = (⊤ : WithTop ℝ) ∧ 0 < pr.2 := by
    intro pr hpr
    exact hpairs pr ((sortPairs_perm _).mem_iff.1 hpr)
  have hSPne : sortPairs (croppedPairs a b (bboxMin n (maskUnion a b))
      (bboxMax n (maskUnion a b)) sp) ≠ [] := by
    intro hcon
    have := (sortPairs_perm (croppedPairs a b (bboxMin n (maskUnion a b))
      (bboxMax n (maskUnion a b)) sp)).length_eq
    rw [hcon] at this
    simp only [List.length_nil] at this
    exact hLPa (List.length_eq_zero.1 this.symm)
  -- the four columns of the a-b call
  have hdgt : (compute_surface_distances n a b sp).distances_gt_to_pred =
      (sortPairs (croppedPairs a b (bboxMin n (maskUnion a b))
        (bboxMax n (maskUnion a b)) sp)).map Prod.fst := by
    show (sortPairs (surfelPairsGt n a b sp)).map Prod.fst = _
    rw [e1]
  have hdpred : (compute_surface_distances n a b sp).distances_pred_to_gt = [] := by
    show (sortPairs (surfelPairsPred n a b sp)).map Prod.fst = _
    rw [e2, hLPb]
    rfl
  have hagt : (compute_surface_distances n a b sp).surfel_areas_gt =
      (sortPairs (croppedPairs a b (bboxMin n (maskUnion a b))
        (bboxMax n (maskUnion a b)) sp)).map Prod.snd := by
    show (sortPairs (surfelPairsGt n a b sp)).map Prod.snd = _
    rw [e1]
  have hapred : (compute_surface_distances n a b sp).surfel_areas_pred = [] := by
    show (sortPairs (surfelPairsPred n a b sp)).map Prod.snd = _
    rw [e2, hLPb]
    rfl
  have hdtop : ∀ d ∈ (sortPairs (croppedPairs a b (bboxMin n (maskUnion a b))
      (bboxMax n (maskUnion a b)) sp)).map Prod.fst, d = (⊤ : WithTop ℝ) := by
    intro d hd
    rcases List.mem_map.1 hd with ⟨pr, hpr, rfl⟩
    exact (hsorted pr hpr).1
  have hdne : ((sortPairs (croppedPairs a b (bboxMin n (maskUnion a b))
      (bboxMax n (maskUnion a b)) sp)).map Prod.fst) ≠ [] := by
    intro hcon
    rw [List.map_eq_nil_iff] at hcon
    exact hSPne hcon
  have hasum : 0 < ((sortPairs (croppedPairs a b (bboxMin n (maskUnion a b))
      (bboxMax n (maskUnion a b)) sp)).map Prod.snd).sum := by
    refine List.sum_pos _ ?_ ?_
    · intro x hx
      rcases List.mem_map.1 hx with ⟨pr, hpr, rfl⟩
      exact (hsorted pr hpr).2
    · intro hcon
      rw [List.map_eq_nil_iff] at hcon
      exact hSPne hcon
  -- first half conclusions
  have hdice : ∀ tol : ℝ,
      compute_surface_dice_at_tolerance (compute_surface_distances n a b sp) tol = some 0 := by
    intro tol
    unfold compute_surface_dice_at_tolerance
    rw [hdgt, hdpred, hagt, hapred]
    have hzero : overlapSum ((sortPairs (croppedPairs a b (bboxMin n (maskUnion a b))
        (bboxMax n (maskUnion a b)) sp)).map Prod.fst)
        ((sortPairs (croppedPairs a b (bboxMin n (maskUnion a b))
          (bboxMax n (maskUnion a b)) sp)).map Prod.snd) tol = 0 :=
      overlapSum_top tol _ _ hdtop
    rw [hzero]
    show (if _ = 0 then _ else _) = _
    rw [if_neg (by simpa using hasum.ne'), show overlapSum ([] : List (WithTop ℝ)) [] tol = 0
      from rfl]
    norm_num
  have hover : ∀ tol : ℝ,
      compute_surface_overlap_at_tolerance (compute_surface_distances n a b sp) tol =
        (some 0, none) := by
    intro tol
    unfold compute_surface_overlap_at_tolerance overlapDir
    rw [hdgt, hdpred, hagt, hapred]
    have hzero : overlapSum ((sortPairs (croppedPairs a b (bboxMin n (maskUnion a b))
        (bboxMax n (maskUnion a b)) sp)).map Prod.fst)
        ((sortPairs (croppedPairs a b (bboxMin n (maskUnion a b))
          (bboxMax n (maskUnion a b)) sp)).map Prod.snd) tol = 0 :=
      overlapSum_top tol _ _ hdtop
    rw [if_neg hasum.ne', hzero, if_pos List.sum_nil, zero_div]
  -- swap equalities for the mirrored call
  obtain ⟨s1, s2⟩ := surfelPairs_swap n a b sp
  have me1 : (compute_surface_distances n b a sp).distances_gt_to_pred =
      (compute_surface_distances n a b sp).distances_pred_to_gt := by
    show (sortPairs (surfelPairsGt n b a sp)).map Prod.fst = _
    rw [s1]
    rfl
  have me2 : (compute_surface_distances n b a sp).distances_pred_to_gt =
      (compute_surface_distances n a b sp).distances_gt_to_pred := by
    show (sortPairs (surfelPairsPred n b a sp)).map Prod.fst = _
    rw [s2]
    rfl
  have me3 : (compute_surface_distances n b a sp).surfel_areas_gt =
      (compute_surface_distances n a b sp).surfel_areas_pred := by
    show (sortPairs (surfelPairsGt n b a sp)).map Prod.snd = _
    rw [s1]
    rfl
  have me4 : (compute_surface_distances n b a sp).surfel_areas_pred =
      (compute_surface_distances n a b sp).surfel_areas_gt := by
    show (sortPairs (surfelPairsPred n b a sp)).map Prod.snd = _
    rw [s2]
    rfl
  refine ⟨⟨hdpred, hapred, ?_, ?_, hdice, hover⟩, ?_, ?_, ?_, ?_, ?_, ?_⟩
  · rw [hdgt]
    exact hdne
  · rw [hdgt]
    exact hdtop
  · rw [me1, hdpred]
  · rw [me3, hapred]
  · rw [me2, hdgt]
    exact hdne
  · rw [me2, hdgt]
    exact hdtop
  · intro tol
    unfold compute_surface_dice_at_tolerance
    rw [me1, me2, me3, me4, hdgt, hdpred, hagt, hapred]
    have hzero : overlapSum ((sortPairs (croppedPairs a b (bboxMin n (maskUnion a b))
        (bboxMax n (maskUnion a b)) sp)).map Prod.fst)
        ((sortPairs (croppedPairs a b (bboxMin n (maskUnion a b))
          (bboxMax n (maskUnion a b)) sp)).map Prod.snd) tol = 0 :=
      overlapSum_top tol _ _ hdtop
    rw [hzero, show overlapSum ([] : List (WithTop ℝ)) [] tol = 0 from rfl]
    rw [if_neg (by simpa using hasum.ne')]
    norm_num
  · intro tol
    unfold compute_surface_overlap_at_tolerance overlapDir
    rw [me1, me2, me3, me4, hdgt, hdpred, hagt, hapred]
    have hzero : overlapSum ((sortPairs (croppedPairs a b (bboxMin n (maskUnion a b))
        (bboxMax n (maskUnion a b)) sp)).map Prod.fst)
        ((sortPairs (croppedPairs a b (bboxMin n (maskUnion a b))
          (bboxMax n (maskUnion a b)) sp)).map Prod.snd) tol = 0 :=
      overlapSum_top tol _ _ hdtop
    rw [if_neg hasum.ne', hzero, if_pos List.sum_nil, zero_div]

end SurfaceDist

namespace SurfaceDist

/-- Witness for C10: all-true versus all-false single-voxel volumes. -/
theorem surface_distances_one_mask_empty_witness :
    maskNonempty (1, 1, 1) (fun _ _ _ => true) ∧ allFalse (1, 1, 1) (fun _ _ _ => false) ∧
    spacingPos (1, 1, 1) ∧
    ∀ tol : ℝ,
      compute_surface_dice_at_tolerance
        (compute_surface_distances (1, 1, 1) (fun _ _ _ => true) (fun _ _ _ => false) (1, 1, 1))
        tol = some 0 :=
  ⟨by decide, by decide, by decide,
    (surface_distances_one_mask_empty (1, 1, 1) (fun _ _ _ => true) (fun _ _ _ => false)
      (1, 1, 1) (by decide) (by decide) (by decide)).1.2.2.2.2.1⟩

end SurfaceDist
namespace SurfaceDist

/-! Translation lemmas: reads, codes and distances of the padded crop against
the uncropped volume. -/

theorem maskGet_cropPad_translate {n : Shape} {m u : Mask}
    (hmem : ∀ i j k, i < n.1 → j < n.2.1 → k < n.2.2 → m i j k = true →
      ((bboxMin n u).1 ≤ i ∧ i ≤ (bboxMax n u).1) ∧
      ((bboxMin n u).2.1 ≤ j ∧ j ≤ (bboxMax n u).2.1) ∧
      ((bboxMin n u).2.2 ≤ k ∧ k ≤ (bboxMax n u).2.2))
    (hx1 : (bboxMax n u).1 < n.1) (hx2 : (bboxMax n u).2.1 < n.2.1)
    (hx3 : (bboxMax n u).2.2 < n.2.2)
    (hm1 : (bboxMin n u).1 ≤ (bboxMax n u).1) (hm2 : (bboxMin n u).2.1 ≤ (bboxMax n u).2.1)
    (hm3 : (bboxMin n u).2.2 ≤ (bboxMax n u).2.2) (z : ℤ × ℤ × ℤ) :
    maskGet (cropShape (bboxMin n u) (bboxMax n u)) (cropPad m (bboxMin n u) (bboxMax n u)) z =
      maskGet n m (z + natTripleZ (bboxMin n u)) := by
  obtain ⟨z1, z2, z3⟩ := z
  rw [← Bool.coe_iff_coe, maskGet_eq_true_iff, maskGet_eq_true_iff]
  unfold natTripleZ cropShape
  rw [Prod.mk_add_mk, Prod.mk_add_mk]
  dsimp only
  constructor
  · rintro ⟨⟨hg1, hg2, hg3, hg4, hg5, hg6⟩, hv⟩
    rw [cropPad_eq_true_iff] at hv
    obtain ⟨⟨hd1, hd2, hd3⟩, hval⟩ := hv
    refine ⟨⟨by omega, by omega, by omega, by omega, by omega, by omega⟩, ?_⟩
    rw [show (z1 + ((bboxMin n u).1 : ℤ)).toNat = (bboxMin n u).1 + z1.toNat by omega,
      show (z2 + ((bboxMin n u).2.1 : ℤ)).toNat = (bboxMin n u).2.1 + z2.toNat by omega,
      show (z3 + ((bboxMin n u).2.2 : ℤ)).toNat = (bboxMin n u).2.2 + z3.toNat by omega]
    exact hval
  · rintro ⟨⟨hg1, hg2, hg3, hg4, hg5, hg6⟩, hval⟩
    have hbox := hmem _ _ _ (by omega) (by omega) (by omega) hval
    obtain ⟨⟨hb1, hb2⟩, ⟨hb3, hb4⟩, hb5, hb6⟩ := hbox
    refine ⟨⟨by omega, by omega, by omega, by omega, by omega, by omega⟩, ?_⟩
    rw [cropPad_eq_true_iff]
    refine ⟨⟨by omega, by omega, by omega⟩, ?_⟩
    rw [show (bboxMin n u).1 + z1.toNat = (z1 + ((bboxMin n u).1 : ℤ)).toNat by omega,
      show (bboxMin n u).2.1 + z2.toNat = (z2 + ((bboxMin n u).2.1 : ℤ)).toNat by omega,
      show (bboxMin n u).2.2 + z3.toNat = (z3 + ((bboxMin n u).2.2 : ℤ)).toNat by omega]
    exact hval

theorem neighbourCode_cropPad_translate {n : Shape} {m u : Mask}
    (hmem : ∀ i j k, i < n.1 → j < n.2.1 → k < n.2.2 → m i j k = true →
      ((bboxMin n u).1 ≤ i ∧ i ≤ (bboxMax n u).1) ∧
      ((bboxMin n u).2.1 ≤ j ∧ j ≤ (bboxMax n u).2.1) ∧
      ((bboxMin n u).2.2 ≤ k ∧ k ≤ (bboxMax n u).2.2))
    (hx1 : (bboxMax n u).1 < n.1) (hx2 : (bboxMax n u).2.1 < n.2.1)
    (hx3 : (bboxMax n u).2.2 < n.2.2)
    (hm1 : (bboxMin n u).1 ≤ (bboxMax n u).1) (hm2 : (bboxMin n u).2.1 ≤ (bboxMax n u).2.1)
    (hm3 : (bboxMin n u).2.2 ≤ (bboxMax n u).2.2) (p : ℤ × ℤ × ℤ) :
    neighbourCode (cropShape (bboxMin n u) (bboxMax n u))
      (cropPad m (bboxMin n u) (bboxMax n u)) p =
      neighbourCode n m (p + natTripleZ (bboxMin n u)) := by
  obtain ⟨p1, p2, p3⟩ := p
  unfold neighbourCode bitAt natTripleZ
  rw [Prod.mk_add_mk, Prod.mk_add_mk]
  dsimp only
  rw [maskGet_cropPad_translate hmem hx1 hx2 hx3 hm1 hm2 hm3 (p1 - 1, p2 - 1, p3 - 1),
    maskGet_cropPad_translate hmem hx1 hx2 hx3 hm1 hm2 hm3 (p1 - 1, p2 - 1, p3),
    maskGet_cropPad_translate hmem hx1 hx2 hx3 hm1 hm2 hm3 (p1 - 1, p2, p3 - 1),
    maskGet_cropPad_translate hmem hx1 hx2 hx3 hm1 hm2 hm3 (p1 - 1, p2, p3),
    maskGet_cropPad_translate hmem hx1 hx2 hx3 hm1 hm2 hm3 (p1, p2 - 1, p3 - 1),
    maskGet_cropPad_translate hmem hx1 hx2 hx3 hm1 hm2 hm3 (p1, p2 - 1, p3),
    maskGet_cropPad_translate hmem hx1 hx2 hx3 hm1 hm2 hm3 (p1, p2, p3 - 1),
    maskGet_cropPad_translate hmem hx1 hx2 hx3 hm1 hm2 hm3 (p1, p2, p3)]
  unfold natTripleZ
  rw [Prod.mk_add_mk, Prod.mk_add_mk, Prod.mk_add_mk, Prod.mk_add_mk, Prod.mk_add_mk,
    Prod.mk_add_mk, Prod.mk_add_mk, Prod.mk_add_mk, Prod.mk_add_mk, Prod.mk_add_mk,
    Prod.mk_add_mk, Prod.mk_add_mk, Prod.mk_add_mk, Prod.mk_add_mk, Prod.mk_add_mk,
    Prod.mk_add_mk]
  rw [show p1 - 1 + ((bboxMin n u).1 : ℤ) = p1 + ((bboxMin n u).1 : ℤ) - 1 by ring,
    show p2 - 1 + ((bboxMin n u).2.1 : ℤ) = p2 + ((bboxMin n u).2.1 : ℤ) - 1 by ring,
    show p3 - 1 + ((bboxMin n u).2.2 : ℤ) = p3 + ((bboxMin n u).2.2 : ℤ) - 1 by ring]

theorem distSq_translate (sp : ℚ × ℚ × ℚ) (p q t : ℤ × ℤ × ℤ) :
    distSq sp (p + t) (q + t) = distSq sp p q := by
  obtain ⟨p1, p2, p3⟩ := p
  obtain ⟨q1, q2, q3⟩ := q
  obtain ⟨t1, t2, t3⟩ := t
  unfold distSq
  rw [Prod.mk_add_mk, Prod.mk_add_mk, Prod.mk_add_mk, Prod.mk_add_mk]
  dsimp only
  ring_nf

theorem distToSurface_translate (sp : ℚ × ℚ × ℚ) (p t : ℤ × ℤ × ℤ)
    (qs : List (ℤ × ℤ × ℤ)) :
    distToSurface sp (p + t) (qs.map (fun q => q + t)) = distToSurface sp p qs := by
  unfold distToSurface
  rw [List.map_map]
  congr 1
  apply List.map_congr_left
  intro q _
  rw [Function.comp_apply, distSq_translate]

end SurfaceDist
namespace SurfaceDist

/-! The borders of the uncropped computation lie inside the padded
bounding box. -/

theorem neighbourCode_ne_zero_elim {n : Shape} {m : Mask} {p : ℤ × ℤ × ℤ}
    (h : neighbourCode n m p ≠ 0) :
    ∃ q : ℤ × ℤ × ℤ, maskGet n m q = true ∧ p.1 - 1 ≤ q.1 ∧ q.1 ≤ p.1 ∧
      p.2.1 - 1 ≤ q.2.1 ∧ q.2.1 ≤ p.2.1 ∧ p.2.2 - 1 ≤ q.2.2 ∧ q.2.2 ≤ p.2.2 := by
  by_contra hcon
  push_neg at hcon
  refine h ?_
  obtain ⟨p1, p2, p3⟩ := p
  dsimp only at hcon
  have hread : ∀ q : ℤ × ℤ × ℤ, p1 - 1 ≤ q.1 → q.1 ≤ p1 → p2 - 1 ≤ q.2.1 → q.2.1 ≤ p2 →
      p3 - 1 ≤ q.2.2 → q.2.2 ≤ p3 → maskGet n m q = false := by
    intro q b1 b2 b3 b4 b5 b6
    rcases Bool.eq_false_or_eq_true (maskGet n m q) with ht | hf
    · have := hcon q ht b1 b2 b3 b4 b5
      omega
    · exact hf
  unfold neighbourCode bitAt
  dsimp only
  rw [hread (p1 - 1, p2 - 1, p3 - 1) (by dsimp only; omega) (by dsimp only; omega)
      (by dsimp only; omega) (by dsimp only; omega) (by dsimp only; omega) (by dsimp only; omega),
    hread (p1 - 1, p2 - 1, p3) (by dsimp only; omega) (by dsimp only; omega)
      (by dsimp only; omega) (by dsimp only; omega) (by dsimp only; omega) (by dsimp only; omega),
    hread (p1 - 1, p2, p3 - 1) (by dsimp only; omega) (by dsimp only; omega)
      (by dsimp only; omega) (by dsimp only; omega) (by dsimp only; omega) (by dsimp only; omega),
    hread (p1 - 1, p2, p3) (by dsimp only; omega) (by dsimp only; omega)
      (by dsimp only; omega) (by dsimp only; omega) (by dsimp only; omega) (by dsimp only; omega),
    hread (p1, p2 - 1, p3 - 1) (by dsimp only; omega) (by dsimp only; omega)
      (by dsimp only; omega) (by dsimp only; omega) (by dsimp only; omega) (by dsimp only; omega),
    hread (p1, p2 - 1, p3) (by dsimp only; omega) (by dsimp only; omega)
      (by dsimp only; omega) (by dsimp only; omega) (by dsimp only; omega) (by dsimp only; omega),
    hread (p1, p2, p3 - 1) (by dsimp only; omega) (by dsimp only; omega)
      (by dsimp only; omega) (by dsimp only; omega) (by dsimp only; omega) (by dsimp only; omega),
    hread (p1, p2, p3) (by dsimp only; omega) (by dsimp only; omega)
      (by dsimp only; omega) (by dsimp only; omega) (by dsimp only; omega) (by dsimp only; omega)]
  rfl

/-- A border corner of the uncropped computation lies inside
`[bboxMin, bboxMax + 1]` on every axis. -/
theorem full_border_in_box {n : Shape} {m u : Mask}
    (hmem : ∀ i j k, i < n.1 → j < n.2.1 → k < n.2.2 → m i j k = true →
      ((bboxMin n u).1 ≤ i ∧ i ≤ (bboxMax n u).1) ∧
      ((bboxMin n u).2.1 ≤ j ∧ j ≤ (bboxMax n u).2.1) ∧
      ((bboxMin n u).2.2 ≤ k ∧ k ≤ (bboxMax n u).2.2))
    {w : ℤ × ℤ × ℤ} (hb : isBorder n m w = true) :
    ((bboxMin n u).1 : ℤ) ≤ w.1 ∧ w.1 ≤ ((bboxMax n u).1 : ℤ) + 1 ∧
    ((bboxMin n u).2.1 : ℤ) ≤ w.2.1 ∧ w.2.1 ≤ ((bboxMax n u).2.1 : ℤ) + 1 ∧
    ((bboxMin n u).2.2 : ℤ) ≤ w.2.2 ∧ w.2.2 ≤ ((bboxMax n u).2.2 : ℤ) + 1 := by
  unfold isBorder at hb
  rw [decide_eq_true_eq] at hb
  obtain ⟨q, hq, b1, b2, b3, b4, b5, b6⟩ := neighbourCode_ne_zero_elim hb.1
  rw [maskGet_eq_true_iff] at hq
  obtain ⟨⟨g1, g2, g3, g4, g5, g6⟩, hval⟩ := hq
  have hbox := hmem _ _ _ (by omega) (by omega) (by omega) hval
  obtain ⟨⟨c1, c2⟩, ⟨c3, c4⟩, c5, c6⟩ := hbox
  omega

end SurfaceDist
namespace SurfaceDist

/-! Row-major enumeration of a sub-box. -/

theorem cornerLexLT_irrefl (p : ℤ × ℤ × ℤ) : ¬cornerLexLT p p := by
  unfold cornerLexLT
  omega

instance : IsAntisymm (ℤ × ℤ × ℤ) cornerLexLE := ⟨by
  intro a b hab hba
  obtain ⟨a1, a2, a3⟩ := a
  obtain ⟨b1, b2, b3⟩ := b
  rcases hab with hab | hab
  · rcases hba with hba | hba
    · unfold cornerLexLT at hab hba
      dsimp only at hab hba
      have : a1 = b1 ∧ a2 = b2 ∧ a3 = b3 := by omega
      simp [this.1, this.2.1, this.2.2]
    · exact hba.symm
  · exact hab⟩

theorem cornerLexLT_translate (t : ℤ × ℤ × ℤ) {p q : ℤ × ℤ × ℤ} (h : cornerLexLT p q) :
    cornerLexLT (p + t) (q + t) := by
  obtain ⟨p1, p2, p3⟩ := p
  obtain ⟨q1, q2, q3⟩ := q
  obtain ⟨t1, t2, t3⟩ := t
  unfold cornerLexLT at h ⊢
  rw [Prod.mk_add_mk, Prod.mk_add_mk, Prod.mk_add_mk, Prod.mk_add_mk]
  dsimp only at h ⊢
  omega

theorem corners_pairwise (g : Shape) : (corners g).Pairwise cornerLexLT := by
  unfold corners
  rw [List.pairwise_flatMap]
  constructor
  · intro i _
    rw [List.pairwise_flatMap]
    constructor
    · intro j _
      rw [List.pairwise_map]
      refine (List.pairwise_lt_range g.2.2).imp ?_
      intro k1 k2 hk
      unfold cornerLexLT
      dsimp only
      omega
    · refine (List.pairwise_lt_range g.2.1).imp ?_
      intro j1 j2 hj x hx y hy
      rcases List.mem_map.1 hx with ⟨k1, _, rfl⟩
      rcases List.mem_map.1 hy with ⟨k2, _, rfl⟩
      unfold cornerLexLT
      dsimp only
      omega
  · refine (List.pairwise_lt_range g.1).imp ?_
    intro i1 i2 hi x hx y hy
    rcases List.mem_flatMap.1 hx with ⟨j1, _, hx2⟩
    rcases List.mem_flatMap.1 hy with ⟨j2, _, hy2⟩
    rcases List.mem_map.1 hx2 with ⟨k1, _, rfl⟩
    rcases List.mem_map.1 hy2 with ⟨k2, _, rfl⟩
    unfold cornerLexLT
    dsimp only
    omega

theorem cornerLexLT_ne {a b : ℤ × ℤ × ℤ} (hab : cornerLexLT a b) : a ≠ b := by
  intro heq
  rw [heq] at hab
  exact cornerLexLT_irrefl b hab

theorem corners_nodup (g : Shape) : (corners g).Nodup :=
  (corners_pairwise g).imp (fun hab => cornerLexLT_ne hab)

theorem corners_box_eq (N g t : Shape)
    (h1 : t.1 + g.1 ≤ N.1) (h2 : t.2.1 + g.2.1 ≤ N.2.1) (h3 : t.2.2 + g.2.2 ≤ N.2.2) :
    (corners N).filter (fun p => decide ((((t.1 : ℤ) ≤ p.1 ∧ p.1 < (t.1 : ℤ) + (g.1 : ℤ)) ∧
        ((t.2.1 : ℤ) ≤ p.2.1 ∧ p.2.1 < (t.2.1 : ℤ) + (g.2.1 : ℤ)) ∧
        ((t.2.2 : ℤ) ≤ p.2.2 ∧ p.2.2 < (t.2.2 : ℤ) + (g.2.2 : ℤ)))))
      = (corners g).map (fun p => p + natTripleZ t) := by
  have hnodup1 : ((corners N).filter (fun p => decide ((((t.1 : ℤ) ≤ p.1 ∧
      p.1 < (t.1 : ℤ) + (g.1 : ℤ)) ∧
      ((t.2.1 : ℤ) ≤ p.2.1 ∧ p.2.1 < (t.2.1 : ℤ) + (g.2.1 : ℤ)) ∧
      ((t.2.2 : ℤ) ≤ p.2.2 ∧ p.2.2 < (t.2.2 : ℤ) + (g.2.2 : ℤ)))))).Nodup :=
    (corners_nodup N).filter _
  have hnodup2 : ((corners g).map (fun p => p + natTripleZ t)).Nodup := by
    refine ((corners_pairwise g).map _ (fun a b hab => cornerLexLT_translate (natTripleZ t) hab)).imp
      (fun hab => cornerLexLT_ne hab)
  have hmem : ∀ p : ℤ × ℤ × ℤ, (p ∈ (corners N).filter (fun p => decide ((((t.1 : ℤ) ≤ p.1 ∧
      p.1 < (t.1 : ℤ) + (g.1 : ℤ)) ∧
      ((t.2.1 : ℤ) ≤ p.2.1 ∧ p.2.1 < (t.2.1 : ℤ) + (g.2.1 : ℤ)) ∧
      ((t.2.2 : ℤ) ≤ p.2.2 ∧ p.2.2 < (t.2.2 : ℤ) + (g.2.2 : ℤ)))))) ↔
      (p ∈ (corners g).map (fun p => p + natTripleZ t)) := by
    intro p
    rw [List.mem_filter, List.mem_map, decide_eq_true_eq, mem_corners]
    constructor
    · rintro ⟨⟨b1, b2⟩, ⟨b3, b4⟩, b5, b6⟩
      refine ⟨(p.1 - t.1, p.2.1 - t.2.1, p.2.2 - t.2.2), ?_, ?_⟩
      · rw [mem_corners]
        dsimp only
        refine ⟨⟨by omega, by omega⟩, ⟨by omega, by omega⟩, by omega, by omega⟩
      · obtain ⟨p1, p2, p3⟩ := p
        unfold natTripleZ
        rw [Prod.mk_add_mk, Prod.mk_add_mk]
        dsimp only
        rw [show p1 - (t.1 : ℤ) + t.1 = p1 by ring, show p2 - (t.2.1 : ℤ) + t.2.1 = p2 by ring,
          show p3 - (t.2.2 : ℤ) + t.2.2 = p3 by ring]
    · rintro ⟨c, hc, rfl⟩
      rw [mem_corners] at hc
      obtain ⟨⟨c1, c2⟩, ⟨c3, c4⟩, c5, c6⟩ := hc
      obtain ⟨q1, q2, q3⟩ := c
      unfold natTripleZ
      rw [Prod.mk_add_mk, Prod.mk_add_mk]
      dsimp only at c1 c2 c3 c4 c5 c6 ⊢
      refine ⟨⟨by omega, by omega⟩, ⟨by omega, by omega⟩, by omega, by omega⟩
  have hperm := (List.perm_ext_iff_of_nodup hnodup1 hnodup2).2 hmem
  refine List.eq_of_perm_of_sorted (r := cornerLexLE) hperm ?_ ?_
  · exact ((corners_pairwise N).filter _).imp (fun hab => Or.inl hab)
  · exact ((corners_pairwise g).map _
      (fun a b hab => cornerLexLT_translate (natTripleZ t) hab)).imp (fun hab => Or.inl hab)

end SurfaceDist
namespace SurfaceDist

theorem isBorder_cropPad_translate {n : Shape} {m u : Mask}
    (hmem : ∀ i j k, i < n.1 → j < n.2.1 → k < n.2.2 → m i j k = true →
      ((bboxMin n u).1 ≤ i ∧ i ≤ (bboxMax n u).1) ∧
      ((bboxMin n u).2.1 ≤ j ∧ j ≤ (bboxMax n u).2.1) ∧
      ((bboxMin n u).2.2 ≤ k ∧ k ≤ (bboxMax n u).2.2))
    (hx1 : (bboxMax n u).1 < n.1) (hx2 : (bboxMax n u).2.1 < n.2.1)
    (hx3 : (bboxMax n u).2.2 < n.2.2)
    (hm1 : (bboxMin n u).1 ≤ (bboxMax n u).1) (hm2 : (bboxMin n u).2.1 ≤ (bboxMax n u).2.1)
    (hm3 : (bboxMin n u).2.2 ≤ (bboxMax n u).2.2) (p : ℤ × ℤ × ℤ) :
    isBorder (cropShape (bboxMin n u) (bboxMax n u)) (cropPad m (bboxMin n u) (bboxMax n u)) p =
      isBorder n m (p + natTripleZ (bboxMin n u)) := by
  unfold isBorder
  rw [neighbourCode_cropPad_translate hmem hx1 hx2 hx3 hm1 hm2 hm3 p]

/-- The border corners of the uncropped (full) computation are exactly the
translates of the border corners of the padded crop, in the same row-major
order. -/
theorem borderList_translate {n : Shape} {m u : Mask}
    (hmem : ∀ i j k, i < n.1 → j < n.2.1 → k < n.2.2 → m i j k = true →
      ((bboxMin n u).1 ≤ i ∧ i ≤ (bboxMax n u).1) ∧
      ((bboxMin n u).2.1 ≤ j ∧ j ≤ (bboxMax n u).2.1) ∧
      ((bboxMin n u).2.2 ≤ k ∧ k ≤ (bboxMax n u).2.2))
    (hx1 : (bboxMax n u).1 < n.1) (hx2 : (bboxMax n u).2.1 < n.2.1)
    (hx3 : (bboxMax n u).2.2 < n.2.2)
    (hm1 : (bboxMin n u).1 ≤ (bboxMax n u).1) (hm2 : (bboxMin n u).2.1 ≤ (bboxMax n u).2.1)
    (hm3 : (bboxMin n u).2.2 ≤ (bboxMax n u).2.2) :
    borderList n m (n.1 + 1, n.2.1 + 1, n.2.2 + 1) =
      (borderList (cropShape (bboxMin n u) (bboxMax n u))
        (cropPad m (bboxMin n u) (bboxMax n u))
        (cropShape (bboxMin n u) (bboxMax n u))).map
          (fun p => p + natTripleZ (bboxMin n u)) := by
  unfold borderList
  have hstep1 : (corners (n.1 + 1, n.2.1 + 1, n.2.2 + 1)).filter (isBorder n m) =
      (corners (n.1 + 1, n.2.1 + 1, n.2.2 + 1)).filter (fun p => isBorder n m p &&
        decide (((((bboxMin n u).1 : ℤ) ≤ p.1 ∧
          p.1 < ((bboxMin n u).1 : ℤ) + ((cropShape (bboxMin n u) (bboxMax n u)).1 : ℤ)) ∧
        (((bboxMin n u).2.1 : ℤ) ≤ p.2.1 ∧
          p.2.1 < ((bboxMin n u).2.1 : ℤ) + ((cropShape (bboxMin n u) (bboxMax n u)).2.1 : ℤ)) ∧
        (((bboxMin n u).2.2 : ℤ) ≤ p.2.2 ∧
          p.2.2 < ((bboxMin n u).2.2 : ℤ) + ((cropShape (bboxMin n u) (bboxMax n u)).2.2 : ℤ))))) := by
    refine List.filter_congr ?_
    intro p _
    rcases Bool.eq_false_or_eq_true (isBorder n m p) with hb | hb
    · rw [hb, Bool.true_and, eq_comm, decide_eq_true_eq]
      have hbox := full_border_in_box (u := u) hmem hb
      have e1 : ((cropShape (bboxMin n u) (bboxMax n u)).1 : ℕ) =
          (bboxMax n u).1 - (bboxMin n u).1 + 2 := rfl
      have e2 : ((cropShape (bboxMin n u) (bboxMax n u)).2.1 : ℕ) =
          (bboxMax n u).2.1 - (bboxMin n u).2.1 + 2 := rfl
      have e3 : ((cropShape (bboxMin n u) (bboxMax n u)).2.2 : ℕ) =
          (bboxMax n u).2.2 - (bboxMin n u).2.2 + 2 := rfl
      rw [e1, e2, e3]
      refine ⟨⟨by omega, by omega⟩, ⟨by omega, by omega⟩, by omega, by omega⟩
    · rw [hb, Bool.false_and]
  rw [hstep1, ← List.filter_filter, corners_box_eq (n.1 + 1, n.2.1 + 1, n.2.2 + 1)
    (cropShape (bboxMin n u) (bboxMax n u)) (bboxMin n u) (by
      show (bboxMin n u).1 + ((bboxMax n u).1 - (bboxMin n u).1 + 2) ≤ n.1 + 1
      omega) (by
      show (bboxMin n u).2.1 + ((bboxMax n u).2.1 - (bboxMin n u).2.1 + 2) ≤ n.2.1 + 1
      omega) (by
      show (bboxMin n u).2.2 + ((bboxMax n u).2.2 - (bboxMin n u).2.2 + 2) ≤ n.2.2 + 1
      omega), List.filter_map]
  congr 1
  refine List.filter_congr ?_
  intro p _
  rw [Function.comp_apply, isBorder_cropPad_translate hmem hx1 hx2 hx3 hm1 hm2 hm3 p]

end SurfaceDist
namespace SurfaceDist

/-- The surfel pairs of the uncropped (full) computation coincide with
those of the cropped, padded computation. -/
theorem collectPairs_crop_eq {n : Shape} {a b u : Mask} (sp : ℚ × ℚ × ℚ)
    (hmema : ∀ i j k, i < n.1 → j < n.2.1 → k < n.2.2 → a i j k = true →
      ((bboxMin n u).1 ≤ i ∧ i ≤ (bboxMax n u).1) ∧
      ((bboxMin n u).2.1 ≤ j ∧ j ≤ (bboxMax n u).2.1) ∧
      ((bboxMin n u).2.2 ≤ k ∧ k ≤ (bboxMax n u).2.2))
    (hmemb : ∀ i j k, i < n.1 → j < n.2.1 → k < n.2.2 → b i j k = true →
      ((bboxMin n u).1 ≤ i ∧ i ≤ (bboxMax n u).1) ∧
      ((bboxMin n u).2.1 ≤ j ∧ j ≤ (bboxMax n u).2.1) ∧
      ((bboxMin n u).2.2 ≤ k ∧ k ≤ (bboxMax n u).2.2))
    (hx1 : (bboxMax n u).1 < n.1) (hx2 : (bboxMax n u).2.1 < n.2.1)
    (hx3 : (bboxMax n u).2.2 < n.2.2)
    (hm1 : (bboxMin n u).1 ≤ (bboxMax n u).1) (hm2 : (bboxMin n u).2.1 ≤ (bboxMax n u).2.1)
    (hm3 : (bboxMin n u).2.2 ≤ (bboxMax n u).2.2) :
    collectPairs n (n.1 + 1, n.2.1 + 1, n.2.2 + 1) a b sp =
      collectPairs (cropShape (bboxMin n u) (bboxMax n u)) (cropShape (bboxMin n u) (bboxMax n u))
        (cropPad a (bboxMin n u) (bboxMax n u)) (cropPad b (bboxMin n u) (bboxMax n u)) sp := by
  unfold collectPairs
  rw [borderList_translate hmema hx1 hx2 hx3 hm1 hm2 hm3,
    borderList_translate hmemb hx1 hx2 hx3 hm1 hm2 hm3, List.map_map]
  refine List.map_congr_left ?_
  intro p _
  rw [Function.comp_apply]
  refine Prod.ext ?_ ?_
  · show distToSurface sp (p + natTripleZ (bboxMin n u))
      ((borderList (cropShape (bboxMin n u) (bboxMax n u))
        (cropPad b (bboxMin n u) (bboxMax n u))
        (cropShape (bboxMin n u) (bboxMax n u))).map (fun q => q + natTripleZ (bboxMin n u))) = _
    rw [distToSurface_translate]
  · show neighbour_code_to_surface_area sp
      (neighbourCode n a (p + natTripleZ (bboxMin n u))) = _
    rw [← neighbourCode_cropPad_translate hmema hx1 hx2 hx3 hm1 hm2 hm3 p]

/-- C1: with a nonempty union and positive spacing,
`compute_surface_distances` (which crops to the union bounding box and
zero-pads one voxel on the maximum side of each axis only) produces exactly
the result of the reference computation on the uncropped volumes
(`computeSurfaceDistancesFull`, the full 2x2x2 correlation): the neighbour
codes at every corner point of the padded crop equal those of the uncropped
computation at the translated corner, and the returned record is identical. -/
theorem surface_distances_crop_pad_equivalence (n : Shape) (mask_gt mask_pred : Mask)
    (sp : ℚ × ℚ × ℚ) (hne : maskNonempty n (maskUnion mask_gt mask_pred))
    (hsp : spacingPos sp) :
    (∀ p ∈ corners (cropShape (bboxMin n (maskUnion mask_gt mask_pred))
        (bboxMax n (maskUnion mask_gt mask_pred))),
      neighbourCode (cropShape (bboxMin n (maskUnion mask_gt mask_pred))
          (bboxMax n (maskUnion mask_gt mask_pred)))
        (cropPad mask_gt (bboxMin n (maskUnion mask_gt mask_pred))
          (bboxMax n (maskUnion mask_gt mask_pred))) p =
        neighbourCode n mask_gt (p + natTripleZ (bboxMin n (maskUnion mask_gt mask_pred))) ∧
      neighbourCode (cropShape (bboxMin n (maskUnion mask_gt mask_pred))
          (bboxMax n (maskUnion mask_gt mask_pred)))
        (cropPad mask_pred (bboxMin n (maskUnion mask_gt mask_pred))
          (bboxMax n (maskUnion mask_gt mask_pred))) p =
        neighbourCode n mask_pred (p + natTripleZ (bboxMin n (maskUnion mask_gt mask_pred)))) ∧
    compute_surface_distances n mask_gt mask_pred sp =
      computeSurfaceDistancesFull n mask_gt mask_pred sp := by
  have hmem_gt : ∀ i j k, i < n.1 → j < n.2.1 → k < n.2.2 → mask_gt i j k = true →
      ((bboxMin n (maskUnion mask_gt mask_pred)).1 ≤ i ∧
        i ≤ (bboxMax n (maskUnion mask_gt mask_pred)).1) ∧
      ((bboxMin n (maskUnion mask_gt mask_pred)).2.1 ≤ j ∧
        j ≤ (bboxMax n (maskUnion mask_gt mask_pred)).2.1) ∧
      ((bboxMin n (maskUnion mask_gt mask_pred)).2.2 ≤ k ∧
        k ≤ (bboxMax n (maskUnion mask_gt mask_pred)).2.2) := by
    intro i j k hi hj hk hval
    exact bbox_bounds ((maskUnion_true_iff mask_gt mask_pred i j k).2 (Or.inl hval)) hi hj hk
  have hmem_pred : ∀ i j k, i < n.1 → j < n.2.1 → k < n.2.2 → mask_pred i j k = true →
      ((bboxMin n (maskUnion mask_gt mask_pred)).1 ≤ i ∧
        i ≤ (bboxMax n (maskUnion mask_gt mask_pred)).1) ∧
      ((bboxMin n (maskUnion mask_gt mask_pred)).2.1 ≤ j ∧
        j ≤ (bboxMax n (maskUnion mask_gt mask_pred)).2.1) ∧
      ((bboxMin n (maskUnion mask_gt mask_pred)).2.2 ≤ k ∧
        k ≤ (bboxMax n (maskUnion mask_gt mask_pred)).2.2) := by
    intro i j k hi hj hk hval
    exact bbox_bounds ((maskUnion_true_iff mask_gt mask_pred i j k).2 (Or.inr hval)) hi hj hk
  obtain ⟨⟨hx1, hx2, hx3⟩, _⟩ := bbox_attained hne
  obtain ⟨hm1, hm2, hm3⟩ := bboxMin_le_bboxMax hne
  have hnn : ¬(idxNonzero0 n (maskUnion mask_gt mask_pred)).isEmpty = true := by
    simpa [List.isEmpty_iff] using (idxNonzero_ne_nil hne).1
  constructor
  · intro p _
    exact ⟨neighbourCode_cropPad_translate hmem_gt hx1 hx2 hx3 hm1 hm2 hm3 p,
      neighbourCode_cropPad_translate hmem_pred hx1 hx2 hx3 hm1 hm2 hm3 p⟩
  · have hgt : surfelPairsGt n mask_gt mask_pred sp =
        collectPairs n (n.1 + 1, n.2.1 + 1, n.2.2 + 1) mask_gt mask_pred sp := by
      unfold surfelPairsGt
      rw [if_neg hnn]
      unfold croppedPairs
      exact (collectPairs_crop_eq sp hmem_gt hmem_pred hx1 hx2 hx3 hm1 hm2 hm3).symm
    have hpred : surfelPairsPred n mask_gt mask_pred sp =
        collectPairs n (n.1 + 1, n.2.1 + 1, n.2.2 + 1) mask_pred mask_gt sp := by
      unfold surfelPairsPred
      rw [if_neg hnn]
      unfold croppedPairs
      exact (collectPairs_crop_eq sp hmem_pred hmem_gt hx1 hx2 hx3 hm1 hm2 hm3).symm
    unfold compute_surface_distances computeSurfaceDistancesFull
    rw [hgt, hpred]

/-- Witness for C1 at a concrete pair of volumes. -/
theorem surface_distances_crop_pad_equivalence_witness :
    maskNonempty (2, 1, 1) (maskUnion (fun i _ _ => i == 0) (fun _ _ _ => false)) ∧
    spacingPos (1, 2, 3) ∧
    compute_surface_distances (2, 1, 1) (fun i _ _ => i == 0) (fun _ _ _ => false) (1, 2, 3) =
      computeSurfaceDistancesFull (2, 1, 1) (fun i _ _ => i == 0) (fun _ _ _ => false)
        (1, 2, 3) :=
  ⟨by decide, by decide,
    (surface_distances_crop_pad_equivalence (2, 1, 1) (fun i _ _ => i == 0)
      (fun _ _ _ => false) (1, 2, 3) (by decide) (by decide)).2⟩

end SurfaceDist
